import Mathlib

/-!
# Verification of the `bregex` preprocessing core (`backrefs` repository)

This file gives a shallow embedding, in Lean 4, of the token-rewriting core of
`src/backrefs/bregex.py`:

* the search-pattern preprocessor (`RegexSearchTemplate`): quote processing
  (`process_quotes`), extended references (`reference`), verbose comments
  (`verbose_comment`), character classes (`char_groups`), inline flag groups
  (`flags`, `subgroup`) and the retry-driven driver (`apply`);
* the replacement-template compiler (`ReplaceTokens`, `ReplaceTemplate`) and
  the expander (`ReplaceTemplateExpander`);
* the public API dispatchers (`compile_replace`, `expand`, `expandf`,
  `_apply_replace_backrefs`).

Strings are modelled as `List Char` (the source operates on text-mode `str`;
the binary branches of the Python code are not exercised by any theorem below
and are modelled only where they share code with the text path).  Python
exceptions become explicit result constructors, and the two potentially
unbounded retry loops of the search preprocessor are given an explicit fuel
parameter (`none` = fuel exhausted).

External collaborators (the host `regex` engine) are modelled from the spec's
capability interface (§6): `escape` is kept as an explicit function parameter
wherever possible and otherwise instantiated with `escapeModel`, and the host
template-literal grammar (`regex._compile_replacement_helper`) is modelled by
`hostParts`.
-/

namespace Bregex

/-- The two `regex`-module dialect versions (`V0`/`V1`). -/
inductive RVer where
  | v0
  | v1
deriving DecidableEq, Repr

/-- Mutable traversal state of `RegexSearchTemplate`: the `verbose` flag and
the dialect `version`. -/
structure SState where
  verbose : Bool
  version : RVer
deriving DecidableEq, Repr

/-- Result of a search-preprocessor parsing function: normal completion with
emitted output, remaining input and updated state; a `RetryException`; a
`GlobalRetryException`; or fuel exhaustion. -/
inductive SRes where
  | ok (out : List Char) (rest : List Char) (st : SState)
  | retry (st : SState)
  | gretry (st : SState)
  | nofuel
deriving DecidableEq, Repr

/-- Characters matched by `[Laberup]` in the flag regexes. -/
def isFlagLetter (c : Char) : Bool :=
  c = 'L' || c = 'a' || c = 'b' || c = 'e' || c = 'r' || c = 'u' || c = 'p'

/-- Characters matched by `[imsfwx]` (= `[ixmsfw]`) in the flag regexes. -/
def isFlagX (c : Char) : Bool :=
  c = 'i' || c = 'm' || c = 's' || c = 'f' || c = 'w' || c = 'x'

/-- Greedily count the characters consumed by the `(?:[Laberup]|V0|V1|-?[imsfwx])+`
items of `_regex_flags`; with `dash = false` the `-` alternative is
unavailable (`_regex_flags_v0`). -/
def flagItems (dash : Bool) : List Char → Nat
  | 'V' :: '0' :: r => 2 + flagItems dash r
  | 'V' :: '1' :: r => 2 + flagItems dash r
  | '-' :: c :: r => if dash && isFlagX c then 2 + flagItems dash r else 0
  | c :: r => if isFlagLetter c || isFlagX c then 1 + flagItems dash r else 0
  | [] => 0

/-- `RegexSearchTokens.get_flags`: match `\(\?(?:[Laberup]|V0|V1|-?[imsfwx])+\)`
(resp. the `V0` variant without `-`) at the start of `s`.  Returns the matched
text and the remaining input. -/
def matchFlags (version0 : Bool) (s : List Char) : Option (List Char × List Char) :=
  match s with
  | '(' :: '?' :: r =>
    let n := flagItems (!version0) r
    if n = 0 then none
    else
      match r.drop n with
      | ')' :: r'' => some ('(' :: '?' :: (r.take n ++ [')']), r'')
      | _ => none
  | _ => none

/-- Greedily count the characters consumed by the `(?:-?[ixmsfw])+` items of
`_scoped_regex_flags` (`dash = false` gives `_scoped_regex_flags_v0`,
`(?:[imsfwx])+`). -/
def scopedItems (dash : Bool) : List Char → Nat
  | '-' :: c :: r => if dash && isFlagX c then 2 + scopedItems dash r else 0
  | c :: r => if isFlagX c then 1 + scopedItems dash r else 0
  | [] => 0

/-- `RegexSearchTokens.get_scoped_flags`: match `\(\?(?:-?[ixmsfw])+:` (resp.
the `V0` variant) at the start of `s`. -/
def matchScoped (version0 : Bool) (s : List Char) : Option (List Char × List Char) :=
  match s with
  | '(' :: '?' :: r =>
    let n := scopedItems (!version0) r
    if n = 0 then none
    else
      match r.drop n with
      | ':' :: r'' => some ('(' :: '?' :: (r.take n ++ [':']), r'')
      | _ => none
  | _ => none

/-- `RegexSearchTokens.get_comments`: match `\(\?\#[^)]*\)` at the start of
`s`. -/
def matchComments (s : List Char) : Option (List Char × List Char) :=
  match s with
  | '(' :: '?' :: '#' :: r =>
    let body := r.takeWhile (fun c => c ≠ ')')
    match r.dropWhile (fun c => c ≠ ')') with
    | ')' :: r' => some ('(' :: '?' :: '#' :: body ++ [')'], r')
    | _ => none
  | _ => none

/-- Greedily count the characters consumed by the content items
`(?:\\.|[^\\:}]+)+` of `_re_posix` (`\\.` does not match a newline; the
negated class may). -/
def posixItems : List Char → Nat
  | '\\' :: c :: r => if c ≠ '\n' then 2 + posixItems r else 0
  | c :: r => if c ≠ '\\' && c ≠ ':' && c ≠ '}' then 1 + posixItems r else 0
  | [] => 0

/-- `RegexSearchTokens.get_posix`: match `\[:(?:\\.|[^\\:}]+)+:\]` at the
start of `s`. -/
def matchPosix (s : List Char) : Option (List Char × List Char) :=
  match s with
  | '[' :: ':' :: r =>
    let n := posixItems r
    if n = 0 then none
    else
      match r.drop n with
      | ':' :: ']' :: r'' => some ('[' :: ':' :: (r.take n ++ [':', ']']), r'')
      | _ => none
  | _ => none

/-- Does `l` contain the two-character substring `a` `b`? (Python `"ab" in text`.) -/
def hasPair (a b : Char) : List Char → Bool
  | x :: y :: r => (x = a && y = b) || hasPair a b (y :: r)
  | _ => false

/-- Result of `RegexSearchTemplate.flags`: updated state plus the signal it
raises, if any. -/
inductive FRes where
  | ok (st : SState)
  | retry (st : SState)
  | gretry (st : SState)
deriving DecidableEq, Repr

/-- `RegexSearchTemplate.flags`: analyze the flag text (the part between `(?`
and the final `)`/`:`), update verbosity/version, and signal a retry or global
retry when verbosity or version changed. -/
def flagsFn (text : List Char) (st : SState) : FRes :=
  let (verbose, retry) :=
    if st.version = RVer.v1 && hasPair '-' 'x' text && st.verbose then (false, true)
    else if text.elem 'x' && !st.verbose then (true, true)
    else (st.verbose, false)
  let (version, gretry) :=
    if hasPair 'V' '0' text && st.version = RVer.v1 then (RVer.v0, true)
    else if hasPair 'V' '1' text && st.version = RVer.v0 then (RVer.v1, true)
    else (st.version, false)
  let st' : SState := ⟨verbose, version⟩
  if gretry then FRes.gretry st'
  else if retry then FRes.retry st'
  else FRes.ok st'

/-- `RegexSearchTemplate._re_start_wb` (`\b(?=\w)`). -/
def reStartWb : List Char := ['\\', 'b', '(', '?', '=', '\\', 'w', ')']

/-- `RegexSearchTemplate._re_end_wb` (`\b(?<=\w)`). -/
def reEndWb : List Char := ['\\', 'b', '(', '?', '<', '=', '\\', 'w', ')']

/-- `RegexSearchTemplate._line_break` (text mode),
`(?>\r\n|\n|\x0b|\f|\r|\x85| | )` as literal characters. -/
def reLineBreak : List Char :=
  ['(', '?', '>', '\\', 'r', '\\', 'n', '|', '\\', 'n', '|', '\\', 'x', '0', 'b', '|',
   '\\', 'f', '|', '\\', 'r', '|', '\\', 'x', '8', '5', '|',
   '\\', 'u', '2', '0', '2', '8', '|', '\\', 'u', '2', '0', '2', '9', ')']

/-- `RegexSearchTemplate._re_escape` (the literal text `\x1b`). -/
def reEscape : List Char := ['\\', 'x', '1', 'b']

/-- `RegexSearchTemplate._new_refs`: the extended-escape trigger characters. -/
def newRefs : List Char := ['e', 'R', 'Q', 'E', '<', '>']

/-- `RegexSearchTemplate.reference`: handle the character after a `\`.
The backslash `t` has been consumed; `rest` is the remaining input.  Returns
emitted output and remaining input (no signals possible). -/
def reference (rest : List Char) : List Char × List Char :=
  match rest with
  | [] => (['\\'], [])
  | t :: r =>
    if t = '<' then (reStartWb, r)
    else if t = '>' then (reEndWb, r)
    else if t = 'R' then (reLineBreak, r)
    else if t = 'e' then (reEscape, r)
    else (['\\', t], r)

/-- Loop of `RegexSearchTemplate.verbose_comment`: `t` is the current
character, `rest` the remaining input.  Emits the comment verbatim, except
that an escaped `_new_refs` character gets an extra backslash. -/
def vcLoop (t : Char) (rest : List Char) (escaped : Bool) (acc : List Char) :
    List Char × List Char :=
  if t = '\n' then (acc ++ ['\n'], rest)
  else
    let (acc', escaped') :=
      if !escaped && t = '\\' then (acc ++ [t], true)
      else if escaped then
        (if newRefs.elem t then acc ++ ['\\', t] else acc ++ [t], false)
      else (acc ++ [t], false)
    match rest with
    | [] => (acc', [])
    | t' :: r => vcLoop t' r escaped' acc'

/-- `RegexSearchTemplate.verbose_comment` (entered from `normal` with
`t = '#'`). -/
def verboseComment (t : Char) (rest : List Char) : List Char × List Char :=
  vcLoop t rest false []

/-- One iteration of the `char_groups` loop body (text mode): either the
class closes (`inl` with the emitted output and the rest), or the loop
continues (`inr` with the updated accumulator, escape flag, depth `found`,
positions `first`/`subFirst`/`pos`, and remaining input). -/
def cgBranch (ver : RVer) (escaped : Bool) (found first subFirst pos : Nat)
    (t : Char) (rest : List Char) (acc : List Char) :
    (List Char × List Char) ⊕ (List Char × Bool × Nat × Nat × Nat × Nat × List Char) :=
  if !escaped && t = '\\' then
    Sum.inr (acc, true, found, first, subFirst, pos, rest)
  else if escaped then
    if t = 'e' then Sum.inr (acc ++ reEscape, false, found, first, subFirst, pos, rest)
    else Sum.inr (acc ++ ['\\', t], false, found, first, subFirst, pos, rest)
  else if t = '[' && found = 0 then
    Sum.inr (acc ++ [t], false, 1, pos, subFirst, pos, rest)
  else if t = '[' && found ≠ 0 && ver == RVer.v1 then
    match matchPosix ('[' :: rest) with
    | some (txt, rest') =>
      Sum.inr (acc ++ txt, false, found, first, subFirst, pos + txt.length - 2, rest')
    | none => Sum.inr (acc ++ [t], false, found + 1, first, pos, pos, rest)
  else if t = '[' then
    match matchPosix ('[' :: rest) with
    | some (txt, rest') =>
      Sum.inr (acc ++ txt, false, found, first, subFirst, pos + txt.length - 2, rest')
    | none => Sum.inr (acc ++ [t], false, found, first, subFirst, pos, rest)
  else if t = '^' && found = 1 && pos = first + 1 then
    Sum.inr (acc ++ [t], false, found, pos, subFirst, pos, rest)
  else if ver == RVer.v1 && t = '^' && found > 1 && pos = subFirst + 1 then
    Sum.inr (acc ++ [t], false, found, first, pos, pos, rest)
  else if t = ']' && found = 1 && pos ≠ first + 1 then
    Sum.inl (acc ++ [t], rest)
  else if ver == RVer.v1 && t = ']' && found > 1 && pos ≠ subFirst + 1 then
    Sum.inr (acc ++ [t], false, found - 1, first, subFirst, pos, rest)
  else
    Sum.inr (acc ++ [t], false, found, first, subFirst, pos, rest)

/-- Loop of `RegexSearchTemplate.char_groups` (text mode): run one branch of
the body, then advance `pos` and fetch the next character; on exhausted input
(`StopIteration`) a dangling escape flushes the unemitted backslash `t`.
`pos` is the source's running position counter relative to the entry
position, `found` the bracket depth, `first`/`subFirst` the recorded
positions of the last opened class/sub-class.  `none` = fuel exhaustion. -/
def cgLoop : Nat → RVer → Bool → Nat → Nat → Nat → Nat → Char → List Char →
    List Char → Option (List Char × List Char)
  | 0, _, _, _, _, _, _, _, _, _ => none
  | fuel + 1, ver, escaped, found, first, subFirst, pos, t, rest, acc =>
    match cgBranch ver escaped found first subFirst pos t rest acc with
    | Sum.inl (out, rest2) => some (out, rest2)
    | Sum.inr (acc', escaped', found', first', subFirst', pos', rest') =>
      match rest' with
      | [] => some (if escaped' then acc' ++ [t] else acc', [])
      | t' :: r => cgLoop fuel ver escaped' found' first' subFirst' (pos' + 1) t' r acc'

/-- `RegexSearchTemplate.char_groups` (entered from `normal` with `t = '['`).
Text mode (`binary = False`), so POSIX lookups are live. -/
def charGroupsF (fuel : Nat) (ver : RVer) (t : Char) (rest : List Char) :
    Option (List Char × List Char) :=
  cgLoop fuel ver false 0 0 0 0 t rest []

mutual

/-- `RegexSearchTemplate.normal`: dispatch on the current character. -/
def normalF : Nat → SState → Char → List Char → SRes
  | 0, _, _, _ => SRes.nofuel
  | fuel + 1, st, t, rest =>
    if t = '\\' then
      let (out, rest') := reference rest
      SRes.ok out rest' st
    else if t = '(' then subgroupF fuel st rest
    else if st.verbose && t = '#' then
      let (out, rest') := verboseComment t rest
      SRes.ok out rest' st
    else if t = '[' then
      match charGroupsF fuel st.version t rest with
      | some (out, rest') => SRes.ok out rest' st
      | none => SRes.nofuel
    else SRes.ok [t] rest st

/-- `RegexSearchTemplate.subgroup`: handle a `(`.  The `(` has been consumed;
the tokenizer look-aheads re-inspect the string from the `(` position. -/
def subgroupF : Nat → SState → List Char → SRes
  | 0, _, _ => SRes.nofuel
  | fuel + 1, st, rest =>
    match matchFlags (st.version == RVer.v0) ('(' :: rest) with
    | some (txt, rest') =>
      match flagsFn (txt.drop 2).dropLast st with
      | FRes.ok st' => SRes.ok txt rest' st'
      | FRes.retry st' => SRes.retry st'
      | FRes.gretry st' => SRes.gretry st'
    | none =>
      match matchComments ('(' :: rest) with
      | some (txt, rest') => SRes.ok txt rest' st
      | none =>
        let vSaved := st.verbose
        match matchScoped (st.version == RVer.v0) ('(' :: rest) with
        | some (txt, rest') =>
          match flagsFn (txt.drop 2).dropLast st with
          | FRes.gretry st' => SRes.gretry st'
          | FRes.retry st' => sgLoopF fuel st' vSaved txt rest'
          | FRes.ok st' => sgLoopF fuel st' vSaved txt rest'
        | none => sgLoopF fuel st vSaved ['('] rest

/-- The `while retry` loop of `RegexSearchTemplate.subgroup`: parse the group
body, rewinding to the saved position on a `RetryException`; on success the
saved verbosity is restored. -/
def sgLoopF : Nat → SState → Bool → List Char → List Char → SRes
  | 0, _, _, _, _ => SRes.nofuel
  | fuel + 1, st, vSaved, startTok, rest =>
    match sgBodyF fuel st startTok rest with
    | SRes.ok out rest' st' => SRes.ok out rest' ⟨vSaved, st'.version⟩
    | SRes.retry st' => sgLoopF fuel st' vSaved startTok rest
    | SRes.gretry st' => SRes.gretry st'
    | SRes.nofuel => SRes.nofuel

/-- One attempt at the group body (`while t != ")"` in `subgroup`): `acc`
starts as the group's start token. -/
def sgBodyF : Nat → SState → List Char → List Char → SRes
  | 0, _, _, _ => SRes.nofuel
  | fuel + 1, st, acc, rest =>
    match rest with
    | [] => SRes.ok acc [] st
    | t :: rs =>
      if t = ')' then SRes.ok (acc ++ [')']) rs st
      else
        match normalF fuel st t rs with
        | SRes.ok out rest' st' => sgBodyF fuel st' (acc ++ out) rest'
        | SRes.retry st' => SRes.retry st'
        | SRes.gretry st' => SRes.gretry st'
        | SRes.nofuel => SRes.nofuel

/-- `RegexSearchTemplate.main_group`. -/
def mainGroupF : Nat → SState → List Char → List Char → SRes
  | 0, _, _, _ => SRes.nofuel
  | fuel + 1, st, acc, rest =>
    match rest with
    | [] => SRes.ok acc [] st
    | t :: rs =>
      match normalF fuel st t rs with
      | SRes.ok out rest' st' => mainGroupF fuel st' (acc ++ out) rest'
      | SRes.retry st' => SRes.retry st'
      | SRes.gretry st' => SRes.gretry st'
      | SRes.nofuel => SRes.nofuel

end

/-- The `while retry` loop of `RegexSearchTemplate.apply`: both retry
exceptions rewind to position 0 and re-parse with the mutated state. -/
def applyLoopF : Nat → SState → List Char → Option (List Char)
  | 0, _, _ => none
  | fuel + 1, st, s =>
    match mainGroupF fuel st [] s with
    | SRes.ok out _ _ => some out
    | SRes.retry st' => applyLoopF fuel st' s
    | SRes.gretry st' => applyLoopF fuel st' s
    | SRes.nofuel => none

/-- Loop of `RegexSearchTemplate.process_quotes`: `escaped`/`inQuotes` track
the scan state, `cur` the output, `quoted` the pending quoted content. -/
def pqLoop (esc : List Char → List Char) : List Char → Bool → Bool → List Char →
    List Char → List Char
  | [], escaped, inQuotes, cur, quoted =>
    let (cur, quoted) :=
      if inQuotes && escaped then (cur, quoted ++ ['\\'])
      else if escaped then (cur ++ ['\\'], quoted)
      else (cur, quoted)
    if quoted.isEmpty then cur else cur ++ esc quoted
  | t :: r, escaped, inQuotes, cur, quoted =>
    if !escaped && t = '\\' then pqLoop esc r true inQuotes cur quoted
    else if escaped then
      if t = 'E' then
        if inQuotes then pqLoop esc r false false (cur ++ esc quoted) []
        else pqLoop esc r false inQuotes cur quoted
      else if t = 'Q' && !inQuotes then pqLoop esc r false true cur quoted
      else if inQuotes then pqLoop esc r false inQuotes cur (quoted ++ ['\\', t])
      else pqLoop esc r false inQuotes (cur ++ ['\\', t]) quoted
    else if inQuotes then pqLoop esc r escaped inQuotes cur (quoted ++ [t])
    else pqLoop esc r escaped inQuotes (cur ++ [t]) quoted

/-- `RegexSearchTemplate.process_quotes`, parameterized by the host engine's
`escape` function. -/
def processQuotes (esc : List Char → List Char) (s : List Char) : List Char :=
  pqLoop esc s false false [] []

/-- `RegexSearchTemplate.apply` (text mode): quote processing followed by the
retried main-group parse.  `reVersion = none` models a falsy `re_version`, for
which the source falls back to `regex.DEFAULT_VERSION` (`V0`). -/
def applySearch (esc : List Char → List Char) (fuel : Nat) (search : List Char)
    (reVerbose : Bool) (reVersion : Option RVer) : Option (List Char) :=
  applyLoopF fuel ⟨reVerbose, reVersion.getD RVer.v0⟩ (processQuotes esc search)

/-- Model of the host engine's `escape` (spec §6: "literal-ize all
metacharacters"): modelled from the spec, escaping every character that is not
a word character, as `regex.escape` does for metacharacters. -/
def escapeModel : List Char → List Char
  | [] => []
  | c :: r => (if c.isAlphanum || c = '_' then [c] else ['\\', c]) ++ escapeModel r

/-! ## Concrete inputs for the search-preprocessor claims -/

/-- The verbose-restart pattern of claim C2: an unescaped `#` followed by the
extended escape sequence backslash-`<` on the same line, a backslash-`<` on the
next line, a mid-pattern `(?x)`, and a trailing `#`-comment containing another
backslash-`<`. -/
def c2pat : List Char := "#\\<\n\\<(?x)#\\<".data

/-- Output the source actually produces for `c2pat`: the verbose toggle
restarts scanning from position 0, so the leading `#` also becomes a comment
and its backslash-`<` is preserved (with an extra backslash re-added) instead
of being expanded; the backslash-`<` on the following line is expanded. -/
def c2actual : List Char := "#\\\\<\n\\b(?=\\w)(?x)#\\\\<".data

/-- Output claim C2 predicts for `c2pat`: the `#` before `(?x)` stays a
literal character, so the backslash-`<` after it (same line) would be expanded
like the one on the next line. -/
def c2claim : List Char := "#\\b(?=\\w)\n\\b(?=\\w)(?x)#\\\\<".data

/-- The character-class quoting input of claim C4, taken verbatim from the
repository's own test `test_quote_avoid_char_blocks`. -/
def c4pat : List Char := "Testing [\\Qchar\\E block] [\\Q(AVOIDANCE)\\E]!".data

/-- Output the source actually produces for `c4pat`: `process_quotes` runs as
a global pre-pass with no character-class awareness, so the quoted span inside
the second class is escaped. -/
def c4actual : List Char := "Testing [char block] [\\(AVOIDANCE\\)]!".data

/-- Output the repository's test `test_quote_avoid_char_blocks` asserts for
`c4pat` (quoting suppressed inside character classes). -/
def c4test : List Char := "Testing [char block] [(AVOIDANCE)]!".data

/-- The version-flag pattern `(?V1)(?V0)` of the C6 counterexample: it
contains no extended escapes, yet the two version toggles make the
global-retry loop of `apply` oscillate between `V0` and `V1` forever. -/
def c6pat : List Char := "(?V1)(?V0)".data

/-- Parsing `c6pat` with version `V0` always signals a global retry that
switches to `V1`, for every sufficient fuel. -/
lemma c6_mainGroup_v0 (k : Nat) :
    mainGroupF (k + 6) ⟨false, RVer.v0⟩ [] c6pat =
      SRes.gretry ⟨false, RVer.v1⟩ := rfl

/-- Parsing `c6pat` with version `V1` always signals a global retry that
switches back to `V0`, for every sufficient fuel. -/
lemma c6_mainGroup_v1 (k : Nat) :
    mainGroupF (k + 6) ⟨false, RVer.v1⟩ [] c6pat =
      SRes.gretry ⟨false, RVer.v0⟩ := rfl

/-- The retry loop of `apply` never terminates on `c6pat`: for every fuel the
result is fuel exhaustion, in either version state. -/
lemma c6_applyLoop_none : ∀ fuel (v : RVer),
    applyLoopF fuel ⟨false, v⟩ c6pat = none := by
  intro fuel
  induction fuel with
  | zero => intro v; rfl
  | succ n ih =>
    intro v
    rcases n with _ | n
    · cases v <;> decide
    rcases n with _ | n
    · cases v <;> decide
    rcases n with _ | n
    · cases v <;> decide
    rcases n with _ | n
    · cases v <;> decide
    rcases n with _ | n
    · cases v <;> decide
    rcases n with _ | n
    · cases v <;> decide
    cases v
    · simp only [applyLoopF, c6_mainGroup_v0 n]
      exact ih RVer.v1
    · simp only [applyLoopF, c6_mainGroup_v1 n]
      exact ih RVer.v0

/-! ## Quote-span lemmas (`process_quotes`) -/

/-- Scanning `s` from escape-state `escaped` never encounters a live `\E`
(an `E` whose preceding backslash run has odd parity), i.e. the quote scan of
`process_quotes` never fires its close branch inside `s`. -/
def noLiveE : Bool → List Char → Bool
  | _, [] => true
  | false, c :: r => if c = '\\' then noLiveE true r else noLiveE false r
  | true, c :: r => if c = 'E' then false else noLiveE false r

/-- Final escape-parity after scanning `s` from escape-state `escaped`
(`true` = a dangling backslash is pending). -/
def scanEsc : Bool → List Char → Bool
  | e, [] => e
  | false, c :: r => if c = '\\' then scanEsc true r else scanEsc false r
  | true, _ :: r => scanEsc false r

/-- The quoted content reconstructed by the scan of `s` from escape-state `e`:
a pending backslash is re-emitted in front. -/
def qrecon (e : Bool) (s : List Char) : List Char :=
  if e then '\\' :: s else s

/-- Quote scan of `s ++ "\E"` while in quotes: when `s` has no live `\E` and
ends with even escape parity, the accumulated quoted content is exactly
`q ++ qrecon e s`, escaped and emitted when the closing `\E` is reached. -/
lemma pq_quoted_terminated (esc : List Char → List Char) :
    ∀ (s : List Char) (e : Bool) (cur q : List Char),
      noLiveE e s = true → scanEsc e s = false →
      pqLoop esc (s ++ ['\\', 'E']) e true cur q =
        cur ++ esc (q ++ qrecon e s) := by
  intro s
  induction s with
  | nil =>
    intro e cur q h1 h2
    cases e
    · simp [pqLoop, qrecon]
    · simp [scanEsc] at h2
  | cons c rest ih =>
    intro e cur q h1 h2
    cases e
    · by_cases hc : c = '\\'
      · subst hc
        have hstep : pqLoop esc (('\\' :: rest) ++ ['\\', 'E']) false true cur q =
            pqLoop esc (rest ++ ['\\', 'E']) true true cur q := rfl
        rw [hstep, ih true cur q (by simpa [noLiveE] using h1) (by simpa [scanEsc] using h2)]
        simp [qrecon]
      · have hstep : pqLoop esc ((c :: rest) ++ ['\\', 'E']) false true cur q =
            pqLoop esc (rest ++ ['\\', 'E']) false true cur (q ++ [c]) := by
          simp [pqLoop, hc]
        rw [hstep, ih false cur (q ++ [c]) (by simpa [noLiveE, hc] using h1)
            (by simpa [scanEsc, hc] using h2)]
        simp [qrecon]
    · have hcE : c ≠ 'E' := fun hcontra => by simp [noLiveE, hcontra] at h1
      have hstep : pqLoop esc ((c :: rest) ++ ['\\', 'E']) true true cur q =
          pqLoop esc (rest ++ ['\\', 'E']) false true cur (q ++ ['\\', c]) := by
        by_cases hbs : c = '\\'
        · subst hbs; rfl
        · by_cases hq : c = 'Q'
          · subst hq; rfl
          · simp [pqLoop, hbs, hq, hcE]
      rw [hstep, ih false cur (q ++ ['\\', c]) (by simpa [noLiveE, hcE] using h1)
          (by simpa [scanEsc] using h2)]
      simp [qrecon]

/-- Quote scan of `s` while in quotes with no closing `\E`: the accumulated
quoted content `q ++ qrecon e s` (a dangling escape is flushed as a literal
backslash) is escaped and emitted at end of input, unless it is empty. -/
lemma pq_quoted_unterminated (esc : List Char → List Char) :
    ∀ (s : List Char) (e : Bool) (cur q : List Char),
      noLiveE e s = true →
      pqLoop esc s e true cur q =
        if (q ++ qrecon e s).isEmpty then cur else cur ++ esc (q ++ qrecon e s) := by
  intro s
  induction s with
  | nil =>
    intro e cur q _
    cases e
    · simp [pqLoop, qrecon]
    · simp [pqLoop, qrecon]
  | cons c rest ih =>
    intro e cur q h1
    cases e
    · by_cases hc : c = '\\'
      · subst hc
        have hstep : pqLoop esc ('\\' :: rest) false true cur q =
            pqLoop esc rest true true cur q := rfl
        rw [hstep, ih true cur q (by simpa [noLiveE] using h1)]
        simp [qrecon]
      · have hstep : pqLoop esc (c :: rest) false true cur q =
            pqLoop esc rest false true cur (q ++ [c]) := by
          simp [pqLoop, hc]
        rw [hstep, ih false cur (q ++ [c]) (by simpa [noLiveE, hc] using h1)]
        simp [qrecon]
    · have hcE : c ≠ 'E' := fun hcontra => by simp [noLiveE, hcontra] at h1
      have hstep : pqLoop esc (c :: rest) true true cur q =
          pqLoop esc rest false true cur (q ++ ['\\', c]) := by
        by_cases hbs : c = '\\'
        · subst hbs; rfl
        · by_cases hq : c = 'Q'
          · subst hq; rfl
          · simp [pqLoop, hbs, hq, hcE]
      rw [hstep, ih false cur (q ++ ['\\', c]) (by simpa [noLiveE, hcE] using h1)]
      simp [qrecon]

/-- C1 (amended): for every host escape function and every string `s` with no
live `\E`, the quote pre-pass replaces `\Q` + `s` + `\E` by `escape(s)`
provided `s` ends with even backslash parity (a dangling backslash would
absorb the closing `\E`); an unterminated `\Q` + `s` escapes the whole
remainder `s` unconditionally. -/
theorem C1_quoting (esc : List Char → List Char) (s : List Char)
    (hE : noLiveE false s = true) (hEmpty : esc [] = []) :
    (scanEsc false s = false →
      processQuotes esc ('\\' :: 'Q' :: (s ++ ['\\', 'E'])) = esc s) ∧
    processQuotes esc ('\\' :: 'Q' :: s) = esc s := by
  constructor
  · intro hpar
    have hstart : processQuotes esc ('\\' :: 'Q' :: (s ++ ['\\', 'E'])) =
        pqLoop esc (s ++ ['\\', 'E']) false true [] [] := rfl
    rw [hstart, pq_quoted_terminated esc s false [] [] hE hpar]
    simp [qrecon]
  · have hstart : processQuotes esc ('\\' :: 'Q' :: s) =
        pqLoop esc s false true [] [] := rfl
    rw [hstart, pq_quoted_unterminated esc s false [] [] hE]
    cases s with
    | nil => simp [qrecon, hEmpty]
    | cons c r => simp [qrecon]

/-- C1 witness: the amended quoting theorem applied at `s = "ab"`. -/
theorem C1_quoting_witness :
    processQuotes escapeModel ('\\' :: 'Q' :: ("ab".data ++ ['\\', 'E'])) =
        escapeModel "ab".data ∧
    processQuotes escapeModel ('\\' :: 'Q' :: "ab".data) = escapeModel "ab".data :=
  ⟨(C1_quoting escapeModel "ab".data (by decide) (by decide)).1 (by decide),
   (C1_quoting escapeModel "ab".data (by decide) (by decide)).2⟩

/-- C1 counterexample: `s` = a single backslash contains no `\E` substring,
yet preprocessing `\Q` + `s` + `\E` does not yield `escape(s)` — the dangling
backslash of `s` absorbs the backslash of the closing `\E`, so the code
escapes the three characters backslash-backslash-`E` instead. -/
theorem C1_counterexample :
    hasPair '\\' 'E' ['\\'] = false ∧
    processQuotes escapeModel ('\\' :: 'Q' :: (['\\'] ++ ['\\', 'E'])) ≠
      escapeModel ['\\'] := ⟨by decide, by decide⟩

/-- C5 (amended): a `\Q` encountered while already quoting does not open a
nested span, but it contributes a literal backslash followed by `Q` (not a
bare `Q`) to the quoted content handed to the host escape function. -/
theorem C5_nested_quote (esc : List Char → List Char) :
    processQuotes esc "\\Qa\\Qb\\E".data = esc "a\\Qb".data := rfl

/-- C5 counterexample: quoting `a\Qb` produces the escape of the four
characters `a`, backslash, `Q`, `b`, not the escape of `aQb` that a bare
literal `Q` contribution would give. -/
theorem C5_counterexample :
    processQuotes escapeModel "\\Qa\\Qb\\E".data = escapeModel "a\\Qb".data ∧
    processQuotes escapeModel "\\Qa\\Qb\\E".data ≠ escapeModel "aQb".data :=
  ⟨by decide, by decide⟩

/-- C2 (amended): because the verbose toggle raises a retry that restarts the
scan from position 0 with verbosity on, every unescaped `#` outside a class —
before or after the `(?x)` — starts a verbose comment in the final pass.  An
extended escape inside such a comment is preserved with an extra backslash
re-added, while one on the line after the first comment (outside any comment)
is still expanded. -/
theorem C2_verbose_restart :
    applySearch escapeModel 100 c2pat false none =
      some ("#\\\\<\n".data ++ reStartWb ++ "(?x)".data ++ "#\\\\<".data) := by
  decide

/-- C2 counterexample: on `c2pat` the source's output treats the `#` before
the `(?x)` as a comment start (its backslash-`<` stays unexpanded), refuting
the claim that only the `#` after the `(?x)` starts a comment. -/
theorem C2_counterexample :
    applySearch escapeModel 100 c2pat false none = some c2actual ∧
      c2actual ≠ c2claim := ⟨by decide, by decide⟩

/-- C4: evaluation of the search preprocessor at the failing input of the
repository's own test `test_quote_avoid_char_blocks`: the `\Q...\E` span
inside the second character class is escaped by the global quote pre-pass
(`[\(AVOIDANCE\)]`), while the test asserts that quoting is suppressed inside
classes (`[(AVOIDANCE)]`). -/
theorem C4_char_class_quoting :
    applySearch escapeModel 200 c4pat false none = some c4actual ∧
      c4actual ≠ c4test := ⟨by decide, by decide⟩

/-- C6 counterexample: the pattern `(?V1)(?V0)` contains none of the extended
escapes, yet the preprocessor never returns on it (for every fuel the retry
loop is still oscillating between the two dialect versions), so in particular
it never returns the pattern unchanged. -/
theorem C6_counterexample :
    ¬ ∃ fuel out, applySearch escapeModel fuel c6pat false none = some out := by
  have key : ∀ fuel, applySearch escapeModel fuel c6pat false none = none := by
    intro fuel
    show applyLoopF fuel ⟨false, RVer.v0⟩ (processQuotes escapeModel c6pat) = none
    rw [show processQuotes escapeModel c6pat = c6pat from rfl]
    exact c6_applyLoop_none fuel RVer.v0
  rintro ⟨fuel, out, h⟩
  rw [key fuel] at h
  exact Option.noConfusion h

/-! ## Identity of the preprocessor on patterns without extended escapes -/

/-- `s` contains none of the two-character extended-escape sequences: no
backslash immediately followed by one of `e R Q E < >` (`_new_refs`). -/
def noExtB : List Char → Bool
  | a :: b :: r => !(a = '\\' && newRefs.elem b) && noExtB (b :: r)
  | _ => true

/-- Dropping the head preserves `noExtB`. -/
lemma noExtB_tail {c : Char} {r : List Char} (h : noExtB (c :: r) = true) :
    noExtB r = true := by
  cases r with
  | nil => rfl
  | cons b r' =>
    simp only [noExtB, Bool.and_eq_true] at h
    exact h.2

/-- Any suffix of a `noExtB` list is `noExtB`. -/
lemma noExtB_suffix : ∀ (l₁ l₂ : List Char), noExtB (l₁ ++ l₂) = true → noExtB l₂ = true := by
  intro l₁
  induction l₁ with
  | nil => intro l₂ h; exact h
  | cons c r ih => intro l₂ h; exact ih l₂ (noExtB_tail h)

/-- With a `noExtB` guarantee, the character after a backslash is none of the
`_new_refs` trigger characters. -/
lemma noExtB_head {b : Char} {r : List Char} (h : noExtB ('\\' :: b :: r) = true) :
    newRefs.elem b = false := by
  by_cases hb : newRefs.elem b
  · exfalso
    simp [noExtB, hb] at h
    exact h.1 (by simpa using hb)
  · simpa using hb

/-- A successful `matchFlags` consumes exactly the text it returns. -/
lemma matchFlags_consumes (v : Bool) :
    ∀ s txt r, matchFlags v s = some (txt, r) → txt ++ r = s := by
  intro s txt r h
  unfold matchFlags at h
  split at h
  case h_2 => exact absurd h (by simp)
  case h_1 rest =>
    simp only at h
    split at h
    · exact absurd h (by simp)
    · split at h
      case h_2 => exact absurd h (by simp)
      case h_1 r'' hdrop =>
        rw [Option.some.injEq, Prod.mk.injEq] at h
        obtain ⟨htxt, hr⟩ := h
        subst htxt
        subst hr
        simp only [List.cons_append, List.cons.injEq, true_and]
        rw [List.append_assoc, List.singleton_append, ← hdrop, List.take_append_drop]

/-- A successful `matchScoped` consumes exactly the text it returns. -/
lemma matchScoped_consumes (v : Bool) :
    ∀ s txt r, matchScoped v s = some (txt, r) → txt ++ r = s := by
  intro s txt r h
  unfold matchScoped at h
  split at h
  case h_2 => exact absurd h (by simp)
  case h_1 rest =>
    simp only at h
    split at h
    · exact absurd h (by simp)
    · split at h
      case h_2 => exact absurd h (by simp)
      case h_1 r'' hdrop =>
        rw [Option.some.injEq, Prod.mk.injEq] at h
        obtain ⟨htxt, hr⟩ := h
        subst htxt
        subst hr
        simp only [List.cons_append, List.cons.injEq, true_and]
        rw [List.append_assoc, List.singleton_append, ← hdrop, List.take_append_drop]

/-- A successful `matchPosix` consumes exactly the text it returns. -/
lemma matchPosix_consumes :
    ∀ s txt r, matchPosix s = some (txt, r) → txt ++ r = s := by
  intro s txt r h
  unfold matchPosix at h
  split at h
  case h_2 => exact absurd h (by simp)
  case h_1 rest =>
    simp only at h
    split at h
    · exact absurd h (by simp)
    · split at h
      case h_2 => exact absurd h (by simp)
      case h_1 r'' hdrop =>
        rw [Option.some.injEq, Prod.mk.injEq] at h
        obtain ⟨htxt, hr⟩ := h
        subst htxt
        subst hr
        simp only [List.cons_append, List.cons.injEq, true_and]
        rw [List.append_assoc, show [':', ']'] ++ r'' = ':' :: ']' :: r'' from rfl,
          ← hdrop, List.take_append_drop]

/-- A successful `matchComments` consumes exactly the text it returns. -/
lemma matchComments_consumes :
    ∀ s txt r, matchComments s = some (txt, r) → txt ++ r = s := by
  intro s txt r h
  unfold matchComments at h
  split at h
  case h_2 => exact absurd h (by simp)
  case h_1 rest =>
    simp only at h
    split at h
    case h_2 => exact absurd h (by simp)
    case h_1 r' hdrop =>
      rw [Option.some.injEq, Prod.mk.injEq] at h
      obtain ⟨htxt, hr⟩ := h
      subst htxt
      subst hr
      simp only [List.cons_append, List.cons.injEq, true_and]
      rw [List.append_assoc, List.singleton_append, ← hdrop,
        List.takeWhile_append_dropWhile]

/-- `newRefs.elem b = false` split into the individual inequalities. -/
lemma newRefs_not {b : Char} (h : List.elem b newRefs = false) :
    b ≠ 'e' ∧ b ≠ 'R' ∧ b ≠ 'Q' ∧ b ≠ 'E' ∧ b ≠ '<' ∧ b ≠ '>' := by
  refine ⟨?_, ?_, ?_, ?_, ?_, ?_⟩ <;>
    (intro hb; subst hb; simp [newRefs] at h)

/-- On input with no extended escape after the backslash, `reference` emits
the consumed characters verbatim. -/
lemma reference_id {rest : List Char} (h : noExtB ('\\' :: rest) = true) :
    (reference rest).1 ++ (reference rest).2 = '\\' :: rest := by
  cases rest with
  | nil => rfl
  | cons t r =>
    obtain ⟨h1, h2, -, -, h3, h4⟩ := newRefs_not (noExtB_head h)
    simp [reference, h1, h2, h3, h4]

/-- On comment text with no extended escapes, `verbose_comment` emits the
consumed characters verbatim (no backslash gets re-added). -/
lemma vc_id : ∀ (rest : List Char) (t : Char) (escaped : Bool) (acc : List Char),
    noExtB (if escaped then '\\' :: t :: rest else t :: rest) = true →
    (vcLoop t rest escaped acc).1 ++ (vcLoop t rest escaped acc).2 = acc ++ t :: rest := by
  intro rest
  induction rest with
  | nil =>
    intro t escaped acc h
    by_cases hnl : t = '\n'
    · subst hnl
      have hv : vcLoop '\n' [] escaped acc = (acc ++ ['\n'], []) := rfl
      rw [hv]
      simp
    · cases escaped with
      | false =>
        by_cases hbs : t = '\\'
        · subst hbs
          have hv : vcLoop '\\' [] false acc = (acc ++ ['\\'], []) := rfl
          rw [hv]
          simp
        · have hv : vcLoop t [] false acc = (acc ++ [t], []) := by
            conv_lhs => rw [vcLoop.eq_def]
            simp [hnl, hbs]
          rw [hv]
          simp
      | true =>
        have hmem : t ∉ newRefs := by simpa using noExtB_head (by simpa using h)
        have hv : vcLoop t [] true acc = (acc ++ [t], []) := by
          conv_lhs => rw [vcLoop.eq_def]
          simp [hnl, hmem]
        rw [hv]
        simp
  | cons t' r ih =>
    intro t escaped acc h
    by_cases hnl : t = '\n'
    · subst hnl
      have hv : vcLoop '\n' (t' :: r) escaped acc = (acc ++ ['\n'], t' :: r) := rfl
      rw [hv]
      simp
    · cases escaped with
      | false =>
        by_cases hbs : t = '\\'
        · subst hbs
          have hstep : vcLoop '\\' (t' :: r) false acc =
              vcLoop t' r true (acc ++ ['\\']) := rfl
          rw [hstep, ih t' true (acc ++ ['\\']) (by simpa using h)]
          simp
        · have hstep : vcLoop t (t' :: r) false acc = vcLoop t' r false (acc ++ [t]) := by
            conv_lhs => rw [vcLoop.eq_def]
            simp [hnl, hbs]
          rw [hstep, ih t' false (acc ++ [t]) (noExtB_tail (by simpa using h))]
          simp
      | true =>
        have hmem : t ∉ newRefs := by simpa using noExtB_head (by simpa using h)
        have hstep : vcLoop t (t' :: r) true acc = vcLoop t' r false (acc ++ [t]) := by
          conv_lhs => rw [vcLoop.eq_def]
          simp [hnl, hmem]
        rw [hstep, ih t' false (acc ++ [t])
            (noExtB_tail (noExtB_tail (by simpa using h)))]
        simp

/-- On input with no `\Q`/`\E` pairs, the quote scan stays out of quoting mode
and reproduces its input. -/
lemma pq_id (esc : List Char → List Char) :
    ∀ (s : List Char) (e : Bool) (cur : List Char),
      noExtB (qrecon e s) = true →
      pqLoop esc s e false cur [] = cur ++ qrecon e s := by
  intro s
  induction s with
  | nil =>
    intro e cur _
    cases e <;> simp [pqLoop, qrecon]
  | cons c rest ih =>
    intro e cur h
    cases e
    · by_cases hc : c = '\\'
      · subst hc
        have hstep : pqLoop esc ('\\' :: rest) false false cur [] =
            pqLoop esc rest true false cur [] := rfl
        rw [hstep, ih true cur (by simpa [qrecon] using h)]
        simp [qrecon]
      · have hstep : pqLoop esc (c :: rest) false false cur [] =
            pqLoop esc rest false false (cur ++ [c]) [] := by
          simp [pqLoop, hc]
        rw [hstep, ih false (cur ++ [c]) (noExtB_tail (by simpa [qrecon] using h))]
        simp [qrecon]
    · obtain ⟨-, -, hQ, hE, -, -⟩ := newRefs_not (noExtB_head (by simpa [qrecon] using h))
      have hstep : pqLoop esc (c :: rest) true false cur [] =
          pqLoop esc rest false false (cur ++ ['\\', c]) [] := by
        by_cases hbs : c = '\\'
        · subst hbs; rfl
        · simp [pqLoop, hbs, hQ, hE]
      rw [hstep, ih false (cur ++ ['\\', c])
          (noExtB_tail (noExtB_tail (by simpa [qrecon] using h)))]
      simp [qrecon]

/-- `process_quotes` is the identity on strings without extended escapes. -/
lemma processQuotes_id (esc : List Char → List Char) (s : List Char)
    (h : noExtB s = true) : processQuotes esc s = s := by
  have := pq_id esc s false [] (by simpa [qrecon] using h)
  simpa [processQuotes, qrecon] using this

set_option maxHeartbeats 2000000 in
/-- A closing branch of the `char_groups` body emits exactly the consumed
characters. -/
lemma cgBranch_inl {ver escaped found first subFirst pos t rest acc out rest2}
    (h : cgBranch ver escaped found first subFirst pos t rest acc =
      Sum.inl (out, rest2)) :
    out ++ rest2 = acc ++ qrecon escaped (t :: rest) := by
  unfold cgBranch at h
  split_ifs at h with h1 h2 h3 h4 h5 h6 h7 h8 h9 h10
  all_goals try split at h
  all_goals
    first
      | (exfalso; simp at h; done)
      | (simp only [Sum.inl.injEq, Prod.mk.injEq] at h
         obtain ⟨ho, hr⟩ := h
         subst ho
         subst hr
         replace h2 : escaped = false := by simpa using h2
         subst h2
         simp [qrecon])

set_option maxHeartbeats 2000000 in
/-- A continuing branch of the `char_groups` body preserves the identity
invariant: the new accumulator plus the (escape-reconstructed) remaining
input equals the old, the escape flag is only set on a backslash, and the
remaining input still has no extended escapes. -/
lemma cgBranch_inr {ver escaped found first subFirst pos t rest acc acc' esc' f' fi' sf' p' rest'}
    (hyp : noExtB (qrecon escaped (t :: rest)) = true)
    (h : cgBranch ver escaped found first subFirst pos t rest acc =
      Sum.inr (acc', esc', f', fi', sf', p', rest')) :
    acc' ++ qrecon esc' rest' = acc ++ qrecon escaped (t :: rest) ∧
    (esc' = true → t = '\\') ∧ noExtB (qrecon esc' rest') = true := by
  unfold cgBranch at h
  split_ifs at h with h1 h2 h3 h4 h5 h6 h7 h8 h9 h10
  · -- backslash: pend the escape
    simp only [Bool.and_eq_true, Bool.not_eq_true', decide_eq_true_eq] at h1
    obtain ⟨he, ht⟩ := h1
    subst he
    subst ht
    simp only [Sum.inr.injEq, Prod.mk.injEq] at h
    obtain ⟨ha, hb, -, -, -, -, hg⟩ := h
    subst ha
    subst hb
    subst hg
    exact ⟨by simp [qrecon], fun _ => rfl, by simpa [qrecon] using hyp⟩
  · -- escaped `\e`: impossible on noExtB input
    exfalso
    subst h2
    subst h3
    have := noExtB_head (by simpa [qrecon] using hyp)
    simp [newRefs] at this
  · -- escaped, other char: emit the pair
    subst h2
    simp only [Sum.inr.injEq, Prod.mk.injEq] at h
    obtain ⟨ha, hb, -, -, -, -, hg⟩ := h
    subst ha
    subst hb
    subst hg
    refine ⟨by simp [qrecon], by simp, ?_⟩
    exact noExtB_tail (noExtB_tail (by simpa [qrecon] using hyp))
  · -- `[` opening the class
    simp only [Sum.inr.injEq, Prod.mk.injEq] at h
    obtain ⟨ha, hb, -, -, -, -, hg⟩ := h
    subst ha
    subst hb
    subst hg
    replace h2 : escaped = false := by simpa using h2
    subst h2
    refine ⟨by simp [qrecon], by simp, ?_⟩
    exact noExtB_tail (by simpa [qrecon] using hyp)
  · -- `[` inside a V1 class: POSIX lookahead or depth increment
    replace h2 : escaped = false := by simpa using h2
    subst h2
    have ht : t = '[' := by
      simp only [Bool.and_eq_true, decide_eq_true_eq] at h5
      exact h5.1.1
    subst ht
    split at h
    next txt rst heq =>
      have hcons := matchPosix_consumes _ _ _ heq
      simp only [Sum.inr.injEq, Prod.mk.injEq] at h
      obtain ⟨ha, hb, -, -, -, -, hg⟩ := h
      subst ha
      subst hb
      subst hg
      refine ⟨?_, by simp, ?_⟩
      · show acc ++ txt ++ rst = acc ++ ('[' :: rest)
        rw [List.append_assoc, hcons]
      · have hx : noExtB (txt ++ rst) = true := by
          rw [hcons]
          simpa [qrecon] using hyp
        exact noExtB_suffix txt rst hx
    next heq =>
      simp only [Sum.inr.injEq, Prod.mk.injEq] at h
      obtain ⟨ha, hb, -, -, -, -, hg⟩ := h
      subst ha
      subst hb
      subst hg
      refine ⟨by simp [qrecon], by simp, ?_⟩
      exact noExtB_tail (by simpa [qrecon] using hyp)
  · -- plain `[` inside a class: POSIX lookahead or literal
    replace h2 : escaped = false := by simpa using h2
    subst h2
    subst h6
    split at h
    next txt rst heq =>
      have hcons := matchPosix_consumes _ _ _ heq
      simp only [Sum.inr.injEq, Prod.mk.injEq] at h
      obtain ⟨ha, hb, -, -, -, -, hg⟩ := h
      subst ha
      subst hb
      subst hg
      refine ⟨?_, by simp, ?_⟩
      · show acc ++ txt ++ rst = acc ++ ('[' :: rest)
        rw [List.append_assoc, hcons]
      · have hx : noExtB (txt ++ rst) = true := by
          rw [hcons]
          simpa [qrecon] using hyp
        exact noExtB_suffix txt rst hx
    next heq =>
      simp only [Sum.inr.injEq, Prod.mk.injEq] at h
      obtain ⟨ha, hb, -, -, -, -, hg⟩ := h
      subst ha
      subst hb
      subst hg
      refine ⟨by simp [qrecon], by simp, ?_⟩
      exact noExtB_tail (by simpa [qrecon] using hyp)
  all_goals
    (simp only [Sum.inr.injEq, Prod.mk.injEq] at h
     obtain ⟨ha, hb, -, -, -, -, hg⟩ := h
     subst ha
     subst hb
     subst hg
     replace h2 : escaped = false := by simpa using h2
     subst h2
     refine ⟨by simp [qrecon], by simp, ?_⟩
     exact noExtB_tail (by simpa [qrecon] using hyp))

/-- `char_groups` emits exactly the characters it consumes on input without
extended escapes. -/
lemma cg_id : ∀ (fuel : Nat) (ver : RVer) (escaped : Bool)
    (found first subFirst pos : Nat) (t : Char) (rest acc out rest2 : List Char),
    noExtB (qrecon escaped (t :: rest)) = true →
    cgLoop fuel ver escaped found first subFirst pos t rest acc = some (out, rest2) →
    out ++ rest2 = acc ++ qrecon escaped (t :: rest) := by
  intro fuel
  induction fuel with
  | zero =>
    intro ver escaped found first subFirst pos t rest acc out rest2 _ hloop
    exact absurd hloop (by simp [cgLoop])
  | succ n ih =>
    intro ver escaped found first subFirst pos t rest acc out rest2 hyp hloop
    simp only [cgLoop] at hloop
    cases hbr : cgBranch ver escaped found first subFirst pos t rest acc with
    | inl p =>
      obtain ⟨o, r2⟩ := p
      rw [hbr] at hloop
      simp only [Option.some.injEq, Prod.mk.injEq] at hloop
      obtain ⟨ho, hr⟩ := hloop
      subst ho
      subst hr
      exact cgBranch_inl hbr
    | inr q =>
      obtain ⟨acc', esc', f', fi', sf', p', rest'⟩ := q
      rw [hbr] at hloop
      obtain ⟨hacc, hesc, hne⟩ := cgBranch_inr hyp hbr
      cases rest' with
      | nil =>
        simp only [Option.some.injEq, Prod.mk.injEq] at hloop
        obtain ⟨ho, hr⟩ := hloop
        subst ho
        subst hr
        cases esc' with
        | false => simpa [qrecon] using hacc
        | true =>
          have ht := hesc rfl
          subst ht
          simpa [qrecon] using hacc
      | cons t' r =>
        exact (ih ver esc' f' fi' sf' (p' + 1) t' r acc' out rest2 hne hloop).trans hacc

/-- Joint identity invariant for the mutually recursive parse functions: on
input without extended escapes, every successful parse emits exactly the
characters it consumes (and `mainGroupF` consumes everything). -/
lemma parse_id : ∀ fuel : Nat,
    (∀ st t rest out rest2 st2, noExtB (t :: rest) = true →
        normalF fuel st t rest = SRes.ok out rest2 st2 → out ++ rest2 = t :: rest) ∧
    (∀ st rest out rest2 st2, noExtB ('(' :: rest) = true →
        subgroupF fuel st rest = SRes.ok out rest2 st2 → out ++ rest2 = '(' :: rest) ∧
    (∀ st vs startTok rest out rest2 st2, noExtB rest = true →
        sgLoopF fuel st vs startTok rest = SRes.ok out rest2 st2 →
        out ++ rest2 = startTok ++ rest) ∧
    (∀ st acc rest out rest2 st2, noExtB rest = true →
        sgBodyF fuel st acc rest = SRes.ok out rest2 st2 → out ++ rest2 = acc ++ rest) ∧
    (∀ st acc rest out rest2 st2, noExtB rest = true →
        mainGroupF fuel st acc rest = SRes.ok out rest2 st2 →
        out = acc ++ rest ∧ rest2 = []) := by
  intro fuel
  induction fuel with
  | zero =>
    refine ⟨?_, ?_, ?_, ?_, ?_⟩ <;>
      (intros; exact absurd (by assumption) (by simp [normalF, subgroupF, sgLoopF, sgBodyF, mainGroupF]))
  | succ n ih =>
    obtain ⟨ihn, ihs, ihl, ihb, ihm⟩ := ih
    have hnormal : ∀ st t rest out rest2 st2, noExtB (t :: rest) = true →
        normalF (n + 1) st t rest = SRes.ok out rest2 st2 → out ++ rest2 = t :: rest := by
      intro st t rest out rest2 st2 hne h
      simp only [normalF] at h
      split_ifs at h with hb1 hb2 hb3 hb4
      · subst hb1
        rcases href : reference rest with ⟨o, r⟩
        rw [href] at h
        simp only [SRes.ok.injEq] at h
        obtain ⟨ho, hr, -⟩ := h
        subst ho
        subst hr
        have hid := reference_id hne
        rw [href] at hid
        exact hid
      · subst hb2
        exact ihs st rest out rest2 st2 hne h
      · rcases hvc : verboseComment t rest with ⟨o, r⟩
        rw [hvc] at h
        simp only [SRes.ok.injEq] at h
        obtain ⟨ho, hr, -⟩ := h
        subst ho
        subst hr
        have hid := vc_id rest t false [] (by simpa using hne)
        unfold verboseComment at hvc
        rw [hvc] at hid
        simpa using hid
      · subst hb4
        cases hcg : charGroupsF n st.version '[' rest with
        | none => rw [hcg] at h; exact absurd h (by simp)
        | some p =>
          obtain ⟨o, r⟩ := p
          rw [hcg] at h
          simp only [SRes.ok.injEq] at h
          obtain ⟨ho, hr, -⟩ := h
          subst ho
          subst hr
          have hid := cg_id n st.version false 0 0 0 0 '[' rest [] o r
            (by simpa [qrecon] using hne) hcg
          simpa [qrecon] using hid
      · simp only [SRes.ok.injEq] at h
        obtain ⟨ho, hr, -⟩ := h
        subst ho
        subst hr
        simp
    have hsub : ∀ st rest out rest2 st2, noExtB ('(' :: rest) = true →
        subgroupF (n + 1) st rest = SRes.ok out rest2 st2 → out ++ rest2 = '(' :: rest := by
      intro st rest out rest2 st2 hne h
      simp only [subgroupF] at h
      cases hf : matchFlags (st.version == RVer.v0) ('(' :: rest) with
      | some p =>
        obtain ⟨txt, rest'⟩ := p
        rw [hf] at h
        simp only [] at h
        cases hfl : flagsFn ((txt.drop 2).dropLast) st with
        | ok st' =>
          rw [hfl] at h
          simp only [SRes.ok.injEq] at h
          obtain ⟨ho, hr, -⟩ := h
          subst ho
          subst hr
          exact matchFlags_consumes _ _ _ _ hf
        | retry st' => rw [hfl] at h; exact absurd h (by simp)
        | gretry st' => rw [hfl] at h; exact absurd h (by simp)
      | none =>
        rw [hf] at h
        cases hc : matchComments ('(' :: rest) with
        | some p =>
          obtain ⟨txt, rest'⟩ := p
          rw [hc] at h
          simp only [] at h
          simp only [SRes.ok.injEq] at h
          obtain ⟨ho, hr, -⟩ := h
          subst ho
          subst hr
          exact matchComments_consumes _ _ _ hc
        | none =>
          rw [hc] at h
          cases hs : matchScoped (st.version == RVer.v0) ('(' :: rest) with
          | some p =>
            obtain ⟨txt, rest'⟩ := p
            rw [hs] at h
            simp only [] at h
            have hcons := matchScoped_consumes _ _ _ _ hs
            have hne' : noExtB rest' = true := by
              refine noExtB_suffix txt rest' ?_
              rw [hcons]
              exact hne
            cases hfl : flagsFn ((txt.drop 2).dropLast) st with
            | gretry st' => rw [hfl] at h; exact absurd h (by simp)
            | retry st' =>
              rw [hfl] at h
              exact (ihl st' st.verbose txt rest' out rest2 st2 hne' h).trans hcons
            | ok st' =>
              rw [hfl] at h
              exact (ihl st' st.verbose txt rest' out rest2 st2 hne' h).trans hcons
          | none =>
            rw [hs] at h
            have := ihl st st.verbose ['('] rest out rest2 st2 (noExtB_tail hne) h
            simpa using this
    have hloop : ∀ st vs startTok rest out rest2 st2, noExtB rest = true →
        sgLoopF (n + 1) st vs startTok rest = SRes.ok out rest2 st2 →
        out ++ rest2 = startTok ++ rest := by
      intro st vs startTok rest out rest2 st2 hne h
      simp only [sgLoopF] at h
      cases hb : sgBodyF n st startTok rest with
      | ok o r2 stx =>
        rw [hb] at h
        simp only [SRes.ok.injEq] at h
        obtain ⟨ho, hr, -⟩ := h
        subst ho
        subst hr
        exact ihb st startTok rest o r2 stx hne hb
      | retry st' =>
        rw [hb] at h
        exact ihl st' vs startTok rest out rest2 st2 hne h
      | gretry st' => rw [hb] at h; exact absurd h (by simp)
      | nofuel => rw [hb] at h; exact absurd h (by simp)
    have hbody : ∀ st acc rest out rest2 st2, noExtB rest = true →
        sgBodyF (n + 1) st acc rest = SRes.ok out rest2 st2 → out ++ rest2 = acc ++ rest := by
      intro st acc rest out rest2 st2 hne h
      simp only [sgBodyF] at h
      cases rest with
      | nil =>
        simp only [SRes.ok.injEq] at h
        obtain ⟨ho, hr, -⟩ := h
        subst ho
        subst hr
        simp
      | cons t rs =>
        simp only [] at h
        by_cases hp : t = ')'
        · subst hp
          rw [if_pos rfl] at h
          simp only [SRes.ok.injEq] at h
          obtain ⟨ho, hr, -⟩ := h
          subst ho
          subst hr
          simp
        · rw [if_neg hp] at h
          cases hn : normalF n st t rs with
          | ok o1 r1 st1 =>
            rw [hn] at h
            have hid1 := ihn st t rs o1 r1 st1 hne hn
            have hne1 : noExtB r1 = true := by
              refine noExtB_suffix o1 r1 ?_
              rw [hid1]
              exact hne
            have hrec := ihb st1 (acc ++ o1) r1 out rest2 st2 hne1 h
            rw [hrec, List.append_assoc, hid1]
          | retry st' => rw [hn] at h; exact absurd h (by simp)
          | gretry st' => rw [hn] at h; exact absurd h (by simp)
          | nofuel => rw [hn] at h; exact absurd h (by simp)
    have hmain : ∀ st acc rest out rest2 st2, noExtB rest = true →
        mainGroupF (n + 1) st acc rest = SRes.ok out rest2 st2 →
        out = acc ++ rest ∧ rest2 = [] := by
      intro st acc rest out rest2 st2 hne h
      simp only [mainGroupF] at h
      cases rest with
      | nil =>
        simp only [SRes.ok.injEq] at h
        obtain ⟨ho, hr, -⟩ := h
        subst ho
        subst hr
        exact ⟨by simp, rfl⟩
      | cons t rs =>
        simp only [] at h
        cases hn : normalF n st t rs with
        | ok o1 r1 st1 =>
          rw [hn] at h
          have hid1 := ihn st t rs o1 r1 st1 hne hn
          have hne1 : noExtB r1 = true := by
            refine noExtB_suffix o1 r1 ?_
            rw [hid1]
            exact hne
          obtain ⟨ho, hr⟩ := ihm st1 (acc ++ o1) r1 out rest2 st2 hne1 h
          refine ⟨?_, hr⟩
          rw [ho, List.append_assoc, hid1]
        | retry st' => rw [hn] at h; exact absurd h (by simp)
        | gretry st' => rw [hn] at h; exact absurd h (by simp)
        | nofuel => rw [hn] at h; exact absurd h (by simp)
    exact ⟨hnormal, hsub, hloop, hbody, hmain⟩

/-- The retried top-level parse returns its input unchanged when the input has
no extended escapes. -/
lemma applyLoop_id : ∀ (fuel : Nat) (st : SState) (s out : List Char),
    noExtB s = true → applyLoopF fuel st s = some out → out = s := by
  intro fuel
  induction fuel with
  | zero => intro st s out _ h; exact absurd h (by simp [applyLoopF])
  | succ n ih =>
    intro st s out hne h
    simp only [applyLoopF] at h
    cases hm : mainGroupF n st [] s with
    | ok o r2 stx =>
      rw [hm] at h
      obtain ⟨ho, -⟩ := (parse_id n).2.2.2.2 st [] s o r2 stx hne hm
      simp only [Option.some.injEq] at h
      rw [← h, ho]
      simp
    | retry st' => rw [hm] at h; exact ih st' s out hne h
    | gretry st' => rw [hm] at h; exact ih st' s out hne h
    | nofuel => rw [hm] at h; exact absurd h (by simp)

/-- C6 (amended): the search preprocessor is the identity on every pattern
containing none of the extended-escape sequences `\Q \E \< \> \R \e`,
whenever it terminates: if `apply` returns at all, the output equals the
input, for any host escape function, any initial verbosity and any version.
(The original claim also asserted termination, refuted by
`C6_counterexample`.) -/
theorem C6_identity (esc : List Char → List Char) (fuel : Nat)
    (s out : List Char) (vb : Bool) (vv : Option RVer)
    (hne : noExtB s = true) (h : applySearch esc fuel s vb vv = some out) :
    out = s := by
  unfold applySearch at h
  rw [processQuotes_id esc s hne] at h
  exact applyLoop_id fuel _ s out hne h

/-- C6 witness: the identity theorem applied to a concrete extended-escape-free
pattern with verbose comments, a character class, flags and groups. -/
theorem C6_identity_witness :
    ∃ out, applySearch escapeModel 200 "a\\d[^x-z]((?i)b|c) #k".data false none =
        some out ∧ out = "a\\d[^x-z]((?i)b|c) #k".data := by
  refine ⟨_, rfl, ?_⟩
  exact C6_identity escapeModel 200 _ _ false none (by decide) rfl

/-! ## Replacement-template compiler (`ReplaceTokens`, `ReplaceTemplate`) -/

/-- Errors of the replacement side: tokenizer `SyntaxError`s, template
`ValueError`s, expansion `IndexError`, and the API-boundary contract errors.
`nofuel` marks fuel exhaustion of the shallow embedding, never an error of the
source. -/
inductive BErr where
  | syntaxBadRef (c : Char)
  | unmatchedCurly
  | octalRange
  | captureNotInt
  | switchToAuto
  | switchToManual
  | badGroup
  | outOfRange (n : Int)
  | matchIsNone
  | formatCompiled
  | notFormatCompiled
  | expectedStringOrReplace
  | flagsWithCompiled
  | flagsWithTemplate
  | hashMismatch
  | notValidType
  | patternMustBeCompiled
  | internalNone
  | nofuel
deriving DecidableEq, Repr

/-- The case directives `_UPPER` / `_LOWER`. -/
inductive RCase where
  | upper
  | lower
deriving DecidableEq, Repr

/-- Characters of `[cClLEabfrtnv]` in the replace-reference regexes. -/
def isSingleRef (c : Char) : Bool :=
  c = 'c' || c = 'C' || c = 'l' || c = 'L' || c = 'E' || c = 'a' || c = 'b' ||
  c = 'f' || c = 'r' || c = 't' || c = 'n' || c = 'v'

/-- `ReplaceTokens._long_replace_refs`. -/
def longRefs : List Char := ['u', 'U', 'g', 'x', 'N']

/-- Octal digit (`[0-7]`). -/
def isOct (c : Char) : Bool := '0' ≤ c && c ≤ '7'

/-- Hex digit (`[0-9a-fA-F]`). -/
def isHex (c : Char) : Bool :=
  c.isDigit || ('a' ≤ c && c ≤ 'f') || ('A' ≤ c && c ≤ 'F')

/-- Word character (`\w` with ASCII semantics, as the tokenizer regexes are
compiled with `re.ASCII`). -/
def isWord (c : Char) : Bool := c.isAlphanum || c = '_'

/-- Match the `<name>` part of `g(?:<(?:[a-zA-Z]+[a-zA-Z\d_]*|0+|0*[1-9][0-9]?)>)?`
after the `<`: returns the name and the input after the closing `>`. -/
def matchGName (s : List Char) : Option (List Char × List Char) :=
  match s with
  | c :: r =>
    if c.isAlpha then
      let nm := c :: r.takeWhile isWord
      match r.dropWhile isWord with
      | '>' :: r2 => some (nm, r2)
      | _ => none
    else
      let zeros := s.takeWhile (fun c => c = '0')
      match s.dropWhile (fun c => c = '0') with
      | '>' :: r2 => if zeros.isEmpty then none else some (zeros, r2)
      | d1 :: rest1 =>
        if d1.isDigit && d1 ≠ '0' then
          match rest1 with
          | '>' :: r2 => some (zeros ++ [d1], r2)
          | d2 :: '>' :: r2 =>
            if d2.isDigit then some (zeros ++ [d1, d2], r2) else none
          | _ => none
        else none
      | [] => none
  | [] => none

/-- Match `c` followed by exactly `k` hex digits, or fall back to the bare
letter (the regex makes the digit group optional). -/
def hexRef (c : Char) (k : Nat) (r : List Char) : List Char × List Char :=
  let digits := r.take k
  if digits.length = k && digits.all isHex then (c :: digits, r.drop k)
  else ([c], r)

/-- Tail alternatives of `matchReplaceRef` (everything after the octal
triple). -/
def matchReplaceRefTail (s : List Char) : Option (List Char × List Char) :=
  match s with
  | [] => none
  | c :: r =>
    if c.isDigit && c ≠ '0' then
      match r with
      | d :: r2 => if d.isDigit then some ([c, d], r2) else some ([c], r)
      | [] => some ([c], [])
    else if isSingleRef c then some ([c], r)
    else if c = 'g' then
      match r with
      | '<' :: r2 =>
        match matchGName r2 with
        | some (nm, r3) => some ('g' :: '<' :: nm ++ ['>'], r3)
        | none => some (['g'], r)
      | _ => some (['g'], r)
    else if c = 'U' then some (hexRef 'U' 8 r)
    else if c = 'u' then some (hexRef 'u' 4 r)
    else if c = 'x' then some (hexRef 'x' 2 r)
    else if c = 'N' then
      match r with
      | '{' :: r2 =>
        let nm := r2.takeWhile (fun c => isWord c || c = ' ')
        match r2.dropWhile (fun c => isWord c || c = ' ') with
        | '}' :: r3 => if nm.isEmpty then some (['N'], r) else some ('N' :: '{' :: nm ++ ['}'], r3)
        | _ => some (['N'], r)
      | _ => some (['N'], r)
    else none

/-- `ReplaceTokens._replace_group_ref` (text, non-format): match at the
position after a backslash; returns the matched text (group 0) and the rest.
Alternation order: `\\`, `[0-7]{3}`, `[1-9][0-9]?`, `[cClLEabfrtnv]`,
`g<...>`, `U...`, `u...`, `x...`, `N{...}`. -/
def matchReplaceRef (s : List Char) : Option (List Char × List Char) :=
  match s with
  | '\\' :: r => some (['\\'], r)
  | a :: b :: c :: r =>
    if isOct a && isOct b && isOct c then some ([a, b, c], r)
    else matchReplaceRefTail (a :: b :: c :: r)
  | s => matchReplaceRefTail s

/-- Which capture group of `_format_replace_ref` matched: an ordinary escape
(group 2), the `g<...>` alternative (group 3), or the `\{` alternative
(group 4). -/
inductive FKind where
  | plain
  | gref
  | brace
deriving DecidableEq, Repr

/-- `ReplaceTokens._format_replace_ref` (text, format): match at the position
after a backslash.  Alternation order: `\\`, `[cClLEabfrtnv]`, `U...`, `u...`,
`x...`, `[0-7]{1,3}`, `(g<...>)`, `N{...}`, `(\{)`. -/
def matchFormatRef (s : List Char) : Option (FKind × List Char × List Char) :=
  match s with
  | [] => none
  | '\\' :: r => some (FKind.plain, ['\\'], r)
  | c :: r =>
    if isSingleRef c then some (FKind.plain, [c], r)
    else if c = 'U' then some (FKind.plain, hexRef 'U' 8 r)
    else if c = 'u' then some (FKind.plain, hexRef 'u' 4 r)
    else if c = 'x' then some (FKind.plain, hexRef 'x' 2 r)
    else if isOct c then
      let more := (r.takeWhile isOct).take 2
      some (FKind.plain, c :: more, r.drop more.length)
    else if c = 'g' then
      match r with
      | '<' :: r2 =>
        match matchGName r2 with
        | some (nm, r3) => some (FKind.gref, 'g' :: '<' :: nm ++ ['>'], r3)
        | none => some (FKind.gref, ['g'], r)
      | _ => some (FKind.gref, ['g'], r)
    else if c = 'N' then
      match r with
      | '{' :: r2 =>
        let nm := r2.takeWhile (fun c => isWord c || c = ' ')
        match r2.dropWhile (fun c => isWord c || c = ' ') with
        | '}' :: r3 => if nm.isEmpty then some (FKind.plain, ['N'], r)
                       else some (FKind.plain, 'N' :: '{' :: nm ++ ['}'], r3)
        | _ => some (FKind.plain, ['N'], r)
      | _ => some (FKind.plain, ['N'], r)
    else if c = '{' then some (FKind.brace, ['{'], r)
    else none

/-- Result of `_format_replace_group`: a doubled brace (`{{`/`}}`) or a full
`{name[sub]}` group token. -/
inductive FGroup where
  | double
  | grp (txt : List Char)
deriving DecidableEq, Repr

/-- Suffix check used by `_format_replace_group`: optional `[...]` subscript
(`\[[^\]]+\]`) followed by the closing `}`.  Returns the consumed text and
the rest. -/
def fgFinish (s : List Char) : Option (List Char × List Char) :=
  match s with
  | '}' :: r => some (['}'], r)
  | '[' :: r =>
    let sub := r.takeWhile (fun c => c ≠ ']')
    if sub.isEmpty then none
    else
      match r.dropWhile (fun c => c ≠ ']') with
      | ']' :: '}' :: r2 => some ('[' :: sub ++ [']', '}'], r2)
      | _ => none
  | _ => none

/-- `ReplaceTokens._format_replace_group`: match
`(\{{2}|\}{2})|(\{(?:[a-zA-Z]+[a-zA-Z\d_]*|0*(?:[1-9][0-9]?)?)?(?:\[[^\]]+\])?\})`
at a `{` or `}`. -/
def matchFormatGroup (s : List Char) : Option (FGroup × List Char) :=
  match s with
  | '{' :: '{' :: r => some (FGroup.double, r)
  | '}' :: '}' :: r => some (FGroup.double, r)
  | '{' :: r =>
    match r with
    | c :: _ =>
      if c.isAlpha then
        let nm := r.takeWhile isWord
        match fgFinish (r.dropWhile isWord) with
        | some (fin, r2) => some (FGroup.grp ('{' :: nm ++ fin), r2)
        | none => none
      else
        let zeros := r.takeWhile (fun c => c = '0')
        let r0 := r.dropWhile (fun c => c = '0')
        match r0 with
        | d1 :: rest1 =>
          if d1.isDigit && d1 ≠ '0' then
            match rest1 with
            | d2 :: rest2 =>
              if d2.isDigit then
                match fgFinish rest2 with
                | some (fin, r2) => some (FGroup.grp ('{' :: zeros ++ [d1, d2] ++ fin), r2)
                | none =>
                  match fgFinish (d2 :: rest2) with
                  | some (fin, r2) => some (FGroup.grp ('{' :: zeros ++ [d1] ++ fin), r2)
                  | none => none
              else
                match fgFinish (d2 :: rest2) with
                | some (fin, r2) => some (FGroup.grp ('{' :: zeros ++ [d1] ++ fin), r2)
                | none => none
            | [] => none
          else
            match fgFinish r0 with
            | some (fin, r2) => some (FGroup.grp ('{' :: zeros ++ fin), r2)
            | none => none
        | [] => none
    | [] => none
  | _ => none

/-- `ReplaceTokens.iternext` (text mode): produce the next token (and the
rest), `none` at end of input, or a `SyntaxError` for a bare long reference /
`ValueError` for an unmatched curly bracket. -/
def replNext (fmt : Bool) (s : List Char) : Except BErr (Option (List Char × List Char)) :=
  match s with
  | [] => Except.ok none
  | '\\' :: rs =>
    if fmt then
      match matchFormatRef rs with
      | none => Except.ok (some (['\\'], rs))
      | some (kind, g0, rest) =>
        match g0 with
        | [c] =>
          if longRefs.elem c then Except.error (BErr.syntaxBadRef c)
          else if kind = FKind.brace then Except.ok (some (['\\', '\\'], rs))
          else if kind = FKind.gref then Except.ok (some ('\\' :: '\\' :: g0, rest))
          else Except.ok (some ('\\' :: g0, rest))
        | _ =>
          if kind = FKind.brace then Except.ok (some (['\\', '\\'], rs))
          else if kind = FKind.gref then Except.ok (some ('\\' :: '\\' :: g0, rest))
          else Except.ok (some ('\\' :: g0, rest))
    else
      match matchReplaceRef rs with
      | none => Except.ok (some (['\\'], rs))
      | some (g0, rest) =>
        match g0 with
        | [c] =>
          if longRefs.elem c then Except.error (BErr.syntaxBadRef c)
          else Except.ok (some ('\\' :: g0, rest))
        | _ => Except.ok (some ('\\' :: g0, rest))
  | c :: rs =>
    if fmt && (c = '{' || c = '}') then
      match matchFormatGroup (c :: rs) with
      | some (FGroup.double, rest) => Except.ok (some ([c], rest))
      | some (FGroup.grp txt, rest) => Except.ok (some (txt, rest))
      | none => Except.error BErr.unmatchedCurly
    else Except.ok (some ([c], rs))

/-- Parsing state of `ReplaceTemplate` during `parse_template`: Python's
`result` (list of strings, seeded with one empty string), `literal_slots`,
`group_slots` (slot, (span case, single case, capture index)), the two case
stacks, the slot counter, the format-addressing flags and `end_found`. -/
structure RState where
  result : List (List Char)
  literalSlots : List (List Char)
  groupSlots : List (Nat × (Option RCase × Option RCase × Int))
  spanStack : List RCase
  singleStack : List RCase
  slot : Nat
  manual : Bool
  auto : Bool
  autoIndex : Nat
  endFound : Bool
deriving DecidableEq, Repr

/-- Initial state of `parse_template` (`self.result = [""]`). -/
def initRState : RState :=
  ⟨[[]], [], [], [], [], 0, false, false, 0, false⟩

/-- `ReplaceTemplate.get_single_stack`: pop every entry; the returned value is
the last one popped, i.e. the bottom of the stack — the FIRST pushed
directive. -/
def getSingleStack (st : RState) : Option RCase × RState :=
  (st.singleStack.head?, { st with singleStack := [] })

/-- `ReplaceTemplate.convert_case` (text mode). -/
def convertCase (s : List Char) (case : RCase) : List Char :=
  match case with
  | RCase.lower => s.map Char.toLower
  | RCase.upper => s.map Char.toUpper

/-- `convert_case` applied with the result of `get_single_stack`, which may be
`None`: Python's `case == _LOWER` comparison sends `None` to the upper-case
branch. -/
def convertCaseOpt (s : List Char) (case : Option RCase) : List Char :=
  match case with
  | some RCase.lower => s.map Char.toLower
  | _ => s.map Char.toUpper

/-- Append a chunk to `self.result`. -/
def pushResult (st : RState) (chunk : List Char) : RState :=
  { st with result := st.result ++ [chunk] }

/-- `ReplaceTemplate.handle_group` (non-format group reference token). -/
def handleGroup (tok : List Char) (st : RState) : RState :=
  let st :=
    if st.result.length > 1 then
      { st with
        literalSlots := st.literalSlots ++ [st.result.flatten, tok],
        result := [[]],
        slot := st.slot + 1 }
    else { st with literalSlots := st.literalSlots ++ [tok] }
  let (single, st) := getSingleStack st
  { st with
    groupSlots := st.groupSlots ++ [(st.slot, (st.spanStack.getLast?, single, -1))],
    slot := st.slot + 1 }

/-- Digit value of a character for Python `int(s, base)` (letters are values
10–35, case-insensitive). -/
def digitVal (c : Char) : Option Nat :=
  if c.isDigit then some (c.toNat - '0'.toNat)
  else if 'a' ≤ c && c ≤ 'z' then some (c.toNat - 'a'.toNat + 10)
  else if 'A' ≤ c && c ≤ 'Z' then some (c.toNat - 'A'.toNat + 10)
  else none

/-- Digit run of Python `int`: every digit below the base, at least one
digit. -/
def pyDigits (s : List Char) (base : Nat) : Option Nat :=
  match s with
  | [] => none
  | _ =>
    s.foldl
      (fun acc c =>
        match acc, digitVal c with
        | some v, some d => if d < base then some (v * base + d) else none
        | _, _ => none)
      (some 0)

/-- Python `int(s, base)` for bases 2/8/10/16: optional sign, an optional
matching `0b`/`0o`/`0x` prefix (case-insensitive), then digits of the base. -/
def pyInt (s : List Char) (base : Nat) : Option Int :=
  let (sign, s) : Int × List Char :=
    match s with
    | '-' :: r => (-1, r)
    | '+' :: r => (1, r)
    | _ => (1, s)
  let s :=
    match base, s with
    | 2, '0' :: b :: r => if b = 'b' || b = 'B' then r else '0' :: b :: r
    | 8, '0' :: b :: r => if b = 'o' || b = 'O' then r else '0' :: b :: r
    | 16, '0' :: b :: r => if b = 'x' || b = 'X' then r else '0' :: b :: r
    | _, s => s
  (pyDigits s base).map (fun v => sign * Int.ofNat v)

/-- Python `str.strip` (whitespace at both ends). -/
def pyStrip (s : List Char) : List Char :=
  (s.dropWhile Char.isWhitespace).reverse.dropWhile Char.isWhitespace |>.reverse

/-- Decimal digits of `n` (for `compat.int2str`). -/
def natToDec (n : Nat) : List Char := Nat.toDigits 10 n

/-- Left-pad with `'0'` to width `w`. -/
def padZero (w : Nat) (s : List Char) : List Char :=
  List.replicate (w - s.length) '0' ++ s

/-- `'\%03o' % v`. -/
def fmtOct3 (v : Nat) : List Char := '\\' :: padZero 3 (Nat.toDigits 8 v)

/-- `'\u%04x' % v`. -/
def fmtU4 (v : Nat) : List Char := '\\' :: 'u' :: padZero 4 (Nat.toDigits 16 v)

/-- `'\U%08x' % v`. -/
def fmtU8 (v : Nat) : List Char := '\\' :: 'U' :: padZero 8 (Nat.toDigits 16 v)

/-- `'\x%02x' % v`. -/
def fmtX2 (v : Nat) : List Char := '\\' :: 'x' :: padZero 2 (Nat.toDigits 16 v)

/-- Modelled from the spec: the host engine's named-character lookup
(`unicodedata.lookup`), an external collaborator of the template compiler
(§4.3/§6).  No claim exercises the `\N{...}` branch; the model returns the
replacement character for every name. -/
def uniLookup (_ : List Char) : Char := Char.ofNat 0xFFFD

/-- `ReplaceTemplate.handle_format_group`: subscript/base parsing, the
auto/manual addressing rules, and slot bookkeeping. -/
def handleFormatGroup (text : List Char) (st : RState) : Except BErr RState := do
  let (captureStr, textName, base) :=
    match text.findIdx? (fun c => c = '[') with
    | none => (none, text, 10)
    | some i =>
      let cap := (text.drop (i + 1)).dropLast
      let pre := if cap.head? = some '-' then (cap.drop 1).take 2 else cap.take 2
      let base :=
        if pre.head? = some '0' then
          match pre.getLast? with
          | some 'b' => 2
          | some 'o' => 8
          | some 'x' => 16
          | _ => 10
        else 10
      (some cap, text.take i, base)
  let capture : Int ←
    match captureStr with
    | none => pure (-1)
    | some cap =>
      match pyInt cap base with
      | some v => pure v
      | none => Except.error BErr.captureNotInt
  let (textName, st) ←
    if textName.isEmpty then
      if st.auto then
        pure (natToDec st.autoIndex, { st with autoIndex := st.autoIndex + 1 })
      else if !st.manual && !st.auto then
        pure (natToDec st.autoIndex, { st with auto := true, autoIndex := st.autoIndex + 1 })
      else Except.error BErr.switchToAuto
    else if !st.manual && !st.auto then
      pure (textName, { st with manual := true })
    else if !st.manual then Except.error BErr.switchToManual
    else pure (textName, st)
  let st :=
    if st.result.length > 1 then
      { st with
        literalSlots := st.literalSlots ++
          [st.result.flatten, ['\\', 'g', '<'], textName, ['>']],
        result := [[]],
        slot := st.slot + 1 }
    else
      { st with literalSlots := st.literalSlots ++ [['\\', 'g', '<'], textName, ['>']] }
  let (single, st) := getSingleStack st
  pure { st with
    groupSlots := st.groupSlots ++ [(st.slot, (st.spanStack.getLast?, single, capture))],
    slot := st.slot + 1 }

/-- `convert_case` on a single character (text mode; ASCII model of Python's
`str.upper`/`str.lower`, which the claims only exercise on ASCII). -/
def caseChar (c : Char) (case : RCase) : Char :=
  match case with
  | RCase.lower => c.toLower
  | RCase.upper => c.toUpper

/-- `convert_case` on a single character with a possibly-`None` case: Python's
`case == _LOWER` test sends `None` to the upper branch. -/
def caseCharOpt (c : Char) (case : Option RCase) : Char :=
  match case with
  | some RCase.lower => c.toLower
  | _ => c.toUpper

/-- `compat.uchr` (`chr`) restricted to Unicode scalar values. -/
def uchr (n : Nat) : Except BErr Char :=
  if Nat.isValidChar n then Except.ok (Char.ofNat n) else Except.error BErr.internalNone

/-- The shared tail of the character branches of `span_case`: case-convert with
the span case, pop the whole single stack, and convert again with the
first-pushed single directive when one exists (`ord(text)` is used unchanged
when there is none). -/
def spanCaseVal (case : RCase) (uc : Char) (st : RState) : Nat × RState :=
  let text := caseChar uc case
  let (single, st) := getSingleStack st
  (match single with
   | some cs => (caseChar text cs).toNat
   | none => text.toNat, st)

/-- The shared tail of the character branches of `single_case`: pop the whole
single stack and convert with the first-pushed directive (the stack is never
empty here, but `None` would convert upward). -/
def singleCaseVal (uc : Char) (st : RState) : Nat × RState :=
  let (single, st) := getSingleStack st
  ((caseCharOpt uc single).toNat, st)

mutual

/-- The `for t in i` loop of `ReplaceTemplate.parse_template` (text mode):
consume tokens, dispatching octals, group references, case directives and
literals. -/
def parseLoopF (fmt : Bool) : Nat → List Char → RState → Except BErr RState
  | 0, _, _ => Except.error BErr.nofuel
  | fuel + 1, s, st =>
    match replNext fmt s with
    | Except.error e => Except.error e
    | Except.ok none => Except.ok st
    | Except.ok (some (t, rest)) =>
      if t.length > 1 then
        if fmt && t.head? = some '{' then
          match handleFormatGroup (pyStrip ((t.drop 1).dropLast)) st with
          | Except.error e => Except.error e
          | Except.ok st' => parseLoopF fmt fuel rest st'
        else
          let c := t.drop 1
          if (c.head?.elim false Char.isDigit) && (fmt || c.length = 3) then
            match pyDigits c 8 with
            | none => Except.error BErr.internalNone
            | some value =>
              let chunk := if value > 0xFF then fmtU4 value else fmtOct3 value
              parseLoopF fmt fuel rest (pushResult st chunk)
          else if !fmt && (c.head?.elim false Char.isDigit || c.head? = some 'g') then
            parseLoopF fmt fuel rest (handleGroup t st)
          else if c = ['l'] then
            match singleCaseF fmt fuel rest RCase.lower st with
            | Except.error e => Except.error e
            | Except.ok (rest', st') => parseLoopF fmt fuel rest' st'
          else if c = ['L'] then
            match spanCaseF fmt fuel rest RCase.lower st with
            | Except.error e => Except.error e
            | Except.ok (rest', st') => parseLoopF fmt fuel rest' st'
          else if c = ['c'] then
            match singleCaseF fmt fuel rest RCase.upper st with
            | Except.error e => Except.error e
            | Except.ok (rest', st') => parseLoopF fmt fuel rest' st'
          else if c = ['C'] then
            match spanCaseF fmt fuel rest RCase.upper st with
            | Except.error e => Except.error e
            | Except.ok (rest', st') => parseLoopF fmt fuel rest' st'
          else if c = ['E'] then
            parseLoopF fmt fuel rest st
          else parseLoopF fmt fuel rest (pushResult st t)
      else parseLoopF fmt fuel rest (pushResult st t)

/-- `ReplaceTemplate.span_case`: push the span case, run the span loop, pop. -/
def spanCaseF (fmt : Bool) : Nat → List Char → RCase → RState → Except BErr (List Char × RState)
  | 0, _, _, _ => Except.error BErr.nofuel
  | fuel + 1, s, case, st =>
    match spanLoopF fmt fuel s case { st with spanStack := st.spanStack ++ [case] } with
    | Except.error e => Except.error e
    | Except.ok (rest, st') =>
      Except.ok (rest, { st' with spanStack := st'.spanStack.dropLast })

/-- The `while t != "\\E"` loop of `span_case` (text mode; `StopIteration`
ends the span silently). -/
def spanLoopF (fmt : Bool) : Nat → List Char → RCase → RState → Except BErr (List Char × RState)
  | 0, _, _, _ => Except.error BErr.nofuel
  | fuel + 1, s, case, st =>
    match replNext fmt s with
    | Except.error e => Except.error e
    | Except.ok none => Except.ok ([], st)
    | Except.ok (some (t, rest)) =>
      if t = ['\\', 'E'] then Except.ok (rest, st)
      else
        let step : Except BErr (List Char × RState) :=
          if t.length > 1 then
            if fmt && t.head? = some '{' then
              match handleFormatGroup (pyStrip ((t.drop 1).dropLast)) st with
              | Except.error e => Except.error e
              | Except.ok st' => Except.ok (rest, st')
            else
              let c := t.drop 1
              if (c.head?.elim false Char.isDigit) && (fmt || c.length = 3) then
                match pyDigits c 8 with
                | none => Except.error BErr.internalNone
                | some value =>
                  match uchr value with
                  | Except.error e => Except.error e
                  | Except.ok uc =>
                    let (v, st') := spanCaseVal case uc st
                    Except.ok (rest,
                      pushResult st' (if v ≤ 0xFF then fmtOct3 v else fmtU4 v))
              else if !fmt && (c.head?.elim false Char.isDigit || c.head? = some 'g') then
                Except.ok (rest, handleGroup t st)
              else if c = ['c'] then singleCaseF fmt fuel rest RCase.upper st
              else if c = ['l'] then singleCaseF fmt fuel rest RCase.lower st
              else if c = ['C'] then spanCaseF fmt fuel rest RCase.upper st
              else if c = ['L'] then spanCaseF fmt fuel rest RCase.lower st
              else if c.head? = some 'N' then
                let uc := uniLookup ((t.drop 3).dropLast)
                let (v, st') := spanCaseVal case uc st
                Except.ok (rest,
                  pushResult st' (if v ≤ 0xFFFF then fmtU4 v else fmtU8 v))
              else if c.head? = some 'u' || c.head? = some 'U' then
                match pyDigits (t.drop 2) 16 with
                | none => Except.error BErr.internalNone
                | some n =>
                  match uchr n with
                  | Except.error e => Except.error e
                  | Except.ok uc =>
                    let (v, st') := spanCaseVal case uc st
                    Except.ok (rest,
                      pushResult st' (if v ≤ 0xFFFF then fmtU4 v else fmtU8 v))
              else if c.head? = some 'x' then
                match pyDigits (t.drop 2) 16 with
                | none => Except.error BErr.internalNone
                | some n =>
                  match uchr n with
                  | Except.error e => Except.error e
                  | Except.ok uc =>
                    let (v, st') := spanCaseVal case uc st
                    Except.ok (rest, pushResult st' (fmtX2 v))
              else
                let (_, st') := getSingleStack st
                Except.ok (rest, pushResult st' t)
          else if st.singleStack ≠ [] then
            let (single, st') := getSingleStack st
            let text := convertCase t case
            match single with
            | some cs =>
              Except.ok (rest,
                pushResult st' (convertCase (text.take 1) cs ++ text.drop 1))
            | none => Except.ok (rest, st')
          else Except.ok (rest, pushResult st (convertCase t case))
        match step with
        | Except.error e => Except.error e
        | Except.ok (rest', st') =>
          if st'.endFound then Except.ok (rest', { st' with endFound := false })
          else spanLoopF fmt fuel rest' case st'

/-- `ReplaceTemplate.single_case` (text mode): push the case, consume ONE
token, dispatch (`StopIteration` leaves the pushed directive pending). -/
def singleCaseF (fmt : Bool) : Nat → List Char → RCase → RState → Except BErr (List Char × RState)
  | 0, _, _, _ => Except.error BErr.nofuel
  | fuel + 1, s, case, st =>
    let st := { st with singleStack := st.singleStack ++ [case] }
    match replNext fmt s with
    | Except.error e => Except.error e
    | Except.ok none => Except.ok ([], st)
    | Except.ok (some (t, rest)) =>
      if t.length > 1 then
        if fmt && t.head? = some '{' then
          match handleFormatGroup (pyStrip ((t.drop 1).dropLast)) st with
          | Except.error e => Except.error e
          | Except.ok st' => Except.ok (rest, st')
        else
          let c := t.drop 1
          if (c.head?.elim false Char.isDigit) && (fmt || c.length = 3) then
            match pyDigits c 8 with
            | none => Except.error BErr.internalNone
            | some value =>
              match uchr value with
              | Except.error e => Except.error e
              | Except.ok uc =>
                let (v, st') := singleCaseVal uc st
                Except.ok (rest,
                  pushResult st' (if v ≤ 0xFF then fmtOct3 v else fmtU4 v))
          else if !fmt && (c.head?.elim false Char.isDigit || c.head? = some 'g') then
            Except.ok (rest, handleGroup t st)
          else if c = ['c'] then singleCaseF fmt fuel rest RCase.upper st
          else if c = ['l'] then singleCaseF fmt fuel rest RCase.lower st
          else if c = ['C'] then spanCaseF fmt fuel rest RCase.upper st
          else if c = ['L'] then spanCaseF fmt fuel rest RCase.lower st
          else if c = ['E'] then Except.ok (rest, { st with endFound := true })
          else if c.head? = some 'N' then
            let uc := uniLookup ((t.drop 3).dropLast)
            let (v, st') := singleCaseVal uc st
            Except.ok (rest,
              pushResult st' (if v ≤ 0xFFFF then fmtU4 v else fmtU8 v))
          else if c.head? = some 'u' || c.head? = some 'U' then
            match pyDigits (t.drop 2) 16 with
            | none => Except.error BErr.internalNone
            | some n =>
              match uchr n with
              | Except.error e => Except.error e
              | Except.ok uc =>
                let (v, st') := singleCaseVal uc st
                Except.ok (rest,
                  pushResult st' (if v ≤ 0xFFFF then fmtU4 v else fmtU8 v))
          else if c.head? = some 'x' then
            match pyDigits (t.drop 2) 16 with
            | none => Except.error BErr.internalNone
            | some n =>
              match uchr n with
              | Except.error e => Except.error e
              | Except.ok uc =>
                let (v, st') := singleCaseVal uc st
                Except.ok (rest, pushResult st' (fmtX2 v))
          else
            let (_, st') := getSingleStack st
            Except.ok (rest, pushResult st' t)
      else
        let (single, st') := getSingleStack st
        Except.ok (rest, pushResult st' (convertCaseOpt t single))

end

/-- A compiled host pattern as the template compiler sees it: its identity
hash (`hash(pattern)`), its number of capture groups and its named groups. -/
structure HostPattern where
  phash : Int
  ngroups : Nat
  groupNames : List (List Char × Nat)
deriving DecidableEq, Repr

/-- A part of a parsed host replacement template: a literal chunk or a group
index. -/
abbrev HPart := List Char ⊕ Nat

/-- Flush a pending literal run into the part list (an empty run yields no
part). -/
def flushLit (lit : List Char) : List HPart :=
  if lit.isEmpty then [] else [Sum.inl lit]

/-- Name or index inside `\g<...>`: digits give the index directly, a name is
resolved against the pattern's group names. -/
def hostGroupIndex (p : HostPattern) (name : List Char) : Except BErr Nat :=
  if name ≠ [] && name.all Char.isDigit then
    match pyDigits name 10 with
    | some n => Except.ok n
    | none => Except.error BErr.badGroup
  else
    match p.groupNames.lookup name with
    | some n => Except.ok n
    | none => Except.error BErr.badGroup

/-- Validate a group index against the pattern (`regex` rejects references to
groups the pattern does not have). -/
def hostCheckGroup (p : HostPattern) (n : Nat) : Except BErr Nat :=
  if n ≤ p.ngroups then Except.ok n else Except.error BErr.badGroup

/-- Modelled from the spec: the host engine's replacement-template parser
(`regex._compile_replacement_helper`), an external collaborator (§4.5).  It
splits the template into parts — group indices for `\g<...>` and `\1`-`\99`
references, decoded literal text otherwise, with maximal literal runs merged
into a single part — validating group references against the pattern. -/
def hostParts (p : HostPattern) : Nat → List Char → List Char → List HPart →
    Except BErr (List HPart)
  | 0, _, _, _ => Except.error BErr.nofuel
  | fuel + 1, s, lit, acc =>
    match s with
    | [] => Except.ok (acc ++ flushLit lit)
    | '\\' :: rest =>
      match rest with
      | [] => Except.error (BErr.syntaxBadRef '\\')
      | 'g' :: '<' :: r =>
        let name := r.takeWhile (fun c => c ≠ '>')
        let r' := r.drop name.length
        (match r' with
         | '>' :: r'' =>
           match hostGroupIndex p name with
           | Except.error e => Except.error e
           | Except.ok n =>
             match hostCheckGroup p n with
             | Except.error e => Except.error e
             | Except.ok n =>
               hostParts p fuel r'' [] (acc ++ flushLit lit ++ [Sum.inr n])
         | _ => Except.error (BErr.syntaxBadRef 'g'))
      | c :: r =>
        if isOct c && (rest.take 3).length = 3 && (rest.take 3).all isOct then
          match pyDigits (rest.take 3) 8 with
          | some v =>
            match uchr v with
            | Except.error e => Except.error e
            | Except.ok ch => hostParts p fuel (rest.drop 3) (lit ++ [ch]) acc
          | none => Except.error BErr.internalNone
        else if c = '0' then
          let ds := rest.takeWhile isOct
          let ds := ds.take 3
          match pyDigits ds 8 with
          | some v =>
            match uchr v with
            | Except.error e => Except.error e
            | Except.ok ch => hostParts p fuel (rest.drop ds.length) (lit ++ [ch]) acc
          | none => Except.error BErr.internalNone
        else if c.isDigit then
          let ds := (rest.takeWhile Char.isDigit).take 2
          match pyDigits ds 10 with
          | some n =>
            match hostCheckGroup p n with
            | Except.error e => Except.error e
            | Except.ok n =>
              hostParts p fuel (rest.drop ds.length) [] (acc ++ flushLit lit ++ [Sum.inr n])
          | none => Except.error BErr.internalNone
        else if c = 'u' then
          match pyDigits (r.take 4) 16 with
          | some v =>
            if (r.take 4).length = 4 then
              match uchr v with
              | Except.error e => Except.error e
              | Except.ok ch => hostParts p fuel (r.drop 4) (lit ++ [ch]) acc
            else Except.error (BErr.syntaxBadRef 'u')
          | none => Except.error (BErr.syntaxBadRef 'u')
        else if c = 'U' then
          match pyDigits (r.take 8) 16 with
          | some v =>
            if (r.take 8).length = 8 then
              match uchr v with
              | Except.error e => Except.error e
              | Except.ok ch => hostParts p fuel (r.drop 8) (lit ++ [ch]) acc
            else Except.error (BErr.syntaxBadRef 'U')
          | none => Except.error (BErr.syntaxBadRef 'U')
        else if c = 'x' then
          match pyDigits (r.take 2) 16 with
          | some v =>
            if (r.take 2).length = 2 then
              match uchr v with
              | Except.error e => Except.error e
              | Except.ok ch => hostParts p fuel (r.drop 2) (lit ++ [ch]) acc
            else Except.error (BErr.syntaxBadRef 'x')
          | none => Except.error (BErr.syntaxBadRef 'x')
        else if c = 'n' then hostParts p fuel r (lit ++ ['\n']) acc
        else if c = 'r' then hostParts p fuel r (lit ++ [Char.ofNat 13]) acc
        else if c = 't' then hostParts p fuel r (lit ++ ['\t']) acc
        else if c = 'f' then hostParts p fuel r (lit ++ [Char.ofNat 12]) acc
        else if c = 'v' then hostParts p fuel r (lit ++ [Char.ofNat 11]) acc
        else if c = 'a' then hostParts p fuel r (lit ++ [Char.ofNat 7]) acc
        else if c = 'b' then hostParts p fuel r (lit ++ [Char.ofNat 8]) acc
        else if c = '\\' then hostParts p fuel r (lit ++ ['\\']) acc
        else hostParts p fuel r (lit ++ ['\\', c]) acc
    | c :: rest => hostParts p fuel rest (lit ++ [c]) acc

/-- `ReplaceTemplate.regex_parse_template`: run the host parser on the
compiled template and split its parts into `groups` (position, group index)
and `literals` (`None` at group positions). -/
def regexParseTemplate (template : List Char) (pattern : HostPattern) (fuel : Nat) :
    Except BErr (List (Nat × Nat) × List (Option (List Char))) :=
  match hostParts pattern fuel template [] [] with
  | Except.error e => Except.error e
  | Except.ok parts =>
    Except.ok
      ((parts.enum.filterMap
          (fun pc =>
            match pc.2 with
            | Sum.inr g => some (pc.1, g)
            | Sum.inl _ => none)),
        parts.map (fun part =>
          match part with
          | Sum.inr _ => none
          | Sum.inl l => some l))

/-- The data of a compiled `ReplaceTemplate`: host `groups`/`literals`, the
recorded `group_slots`, `use_format` and the originating pattern's hash. -/
structure RPlan where
  groups : List (Nat × Nat)
  literals : List (Option (List Char))
  groupSlots : List (Nat × (Option RCase × Option RCase × Int))
  useFormat : Bool
  patternHash : Int
deriving DecidableEq, Repr

/-- `ReplaceTemplate.parse_template` top level: tokenize and fold the
template, flush the trailing literal run, join `literal_slots` and hand the
result to the host parser. -/
def parseTemplate (pattern : HostPattern) (template : List Char) (useFormat : Bool)
    (fuel : Nat) : Except BErr RPlan :=
  match parseLoopF useFormat fuel template initRState with
  | Except.error e => Except.error e
  | Except.ok st =>
    let st :=
      if st.result.length > 1 then
        { st with literalSlots := st.literalSlots ++ [st.result.flatten],
                  slot := st.slot + 1 }
      else st
    match regexParseTemplate st.literalSlots.flatten pattern fuel with
    | Except.error e => Except.error e
    | Except.ok (groups, literals) =>
      Except.ok ⟨groups, literals, st.groupSlots, useFormat, pattern.phash⟩

/-- `ReplaceTemplate.get_group_index`: first matching entry of `groups`. -/
def getGroupIndex (plan : RPlan) (index : Nat) : Option Nat :=
  (plan.groups.find? (fun g => g.1 = index)).map (fun g => g.2)

/-- `ReplaceTemplate.get_group_attributes`: first matching entry of
`group_slots`, defaulting to `(None, None, -1)`. -/
def getGroupAttributes (plan : RPlan) (index : Nat) :
    Option RCase × Option RCase × Int :=
  match plan.groupSlots.find? (fun g => g.1 = index) with
  | some g => g.2
  | none => (none, none, -1)

/-- A host match object as the expander uses it: the originating pattern and,
for each group index, the list of its captures (`match.captures(i)`). -/
structure MMatch where
  re : HostPattern
  capsFn : Nat → List (List Char)

/-- Python list indexing with negative indices, as `captures(g_index)[capture]`
performs it. -/
def pyGet (l : List (List Char)) (i : Int) : Option (List Char) :=
  if 0 ≤ i then l.get? i.toNat
  else if (-i).toNat ≤ l.length then l.get? (l.length - (-i).toNat) else none

/-- `ReplaceTemplateExpander.expand`: walk `literals`; at a group position
look up the group index and slot attributes, take the requested capture
(`IndexError` → "out of range"), then apply the span case to the whole text
and the single case to its first character. -/
def expandPlan (m : MMatch) (plan : RPlan) : Except BErr (List Char) :=
  (plan.literals.enum.foldlM
    (fun text lx =>
      match lx.2 with
      | some l => Except.ok (text ++ l)
      | none =>
        let index := lx.1
        let gIndex := getGroupIndex plan index
        let (spanCase, singleCase, capture) := getGroupAttributes plan index
        match gIndex with
        | none => Except.error BErr.internalNone
        | some g =>
          match pyGet (m.capsFn g) capture with
          | none => Except.error (BErr.outOfRange capture)
          | some l =>
            let l :=
              match spanCase with
              | some RCase.lower => l.map Char.toLower
              | some RCase.upper => l.map Char.toUpper
              | none => l
            let l :=
              match singleCase with
              | some RCase.lower => (l.take 1).map Char.toLower ++ l.drop 1
              | some RCase.upper => (l.take 1).map Char.toUpper ++ l.drop 1
              | none => l
            Except.ok (text ++ l))
    [])

/-- The `Replace` namedtuple: the bound `ReplaceTemplate` (standing for
`func`), `use_format` and `pattern_hash`. -/
structure ReplaceObj where
  plan : RPlan
  use_format : Bool
  pattern_hash : Int
deriving DecidableEq, Repr

/-- The possible `repl` arguments of the replace API: a template string, a
compiled `Replace`, a bare `ReplaceTemplate`, or anything else. -/
inductive ReplIn where
  | rstr (s : List Char)
  | rrepl (r : ReplaceObj)
  | rtempl (t : RPlan)
  | other
deriving Repr

/-- The `FORMAT` flag. -/
def FORMAT : Nat := 1

/-- `compile_replace`: strings are compiled (honouring `FORMAT` in `flags`);
a compiled `Replace` is checked for flags and for its recorded pattern hash;
a bare `ReplaceTemplate` is checked for flags ONLY and rewrapped; anything
else is a type error, as is a missing/uncompiled pattern. -/
def compile_replace (pattern : Option HostPattern) (repl : ReplIn) (flags : Nat)
    (fuel : Nat) : Except BErr ReplaceObj :=
  match pattern with
  | some p =>
    (match repl with
     | ReplIn.rstr s =>
       match parseTemplate p s (flags &&& FORMAT ≠ 0) fuel with
       | Except.error e => Except.error e
       | Except.ok plan => Except.ok ⟨plan, plan.useFormat, plan.patternHash⟩
     | ReplIn.rrepl r =>
       if flags ≠ 0 then Except.error BErr.flagsWithCompiled
       else if r.pattern_hash ≠ p.phash then Except.error BErr.hashMismatch
       else Except.ok r
     | ReplIn.rtempl t =>
       if flags ≠ 0 then Except.error BErr.flagsWithTemplate
       else Except.ok ⟨t, t.useFormat, t.patternHash⟩
     | ReplIn.other => Except.error BErr.notValidType)
  | none => Except.error BErr.patternMustBeCompiled

/-- `_apply_replace_backrefs`: `None` match → `ValueError`; a `Replace` or
`ReplaceTemplate` expands directly; a string is compiled against the match's
own pattern first; anything else falls through returning `None`. -/
def applyReplaceBackrefs (m : Option MMatch) (repl : ReplIn) (flags : Nat)
    (fuel : Nat) : Except BErr (Option (List Char)) :=
  match m with
  | none => Except.error BErr.matchIsNone
  | some mm =>
    match repl with
    | ReplIn.rrepl r =>
      match expandPlan mm r.plan with
      | Except.error e => Except.error e
      | Except.ok out => Except.ok (some out)
    | ReplIn.rtempl t =>
      match expandPlan mm t with
      | Except.error e => Except.error e
      | Except.ok out => Except.ok (some out)
    | ReplIn.rstr s =>
      match parseTemplate mm.re s (flags &&& FORMAT ≠ 0) fuel with
      | Except.error e => Except.error e
      | Except.ok plan =>
        match expandPlan mm plan with
        | Except.error e => Except.error e
        | Except.ok out => Except.ok (some out)
    | ReplIn.other => Except.ok none

/-- `expand`: reject format-compiled replacements, then apply. -/
def expandFn (m : Option MMatch) (repl : ReplIn) (fuel : Nat) :
    Except BErr (Option (List Char)) :=
  match repl with
  | ReplIn.rrepl r =>
    if r.use_format then Except.error BErr.formatCompiled
    else applyReplaceBackrefs m repl 0 fuel
  | ReplIn.rtempl t =>
    if t.useFormat then Except.error BErr.formatCompiled
    else applyReplaceBackrefs m repl 0 fuel
  | ReplIn.rstr _ => applyReplaceBackrefs m repl 0 fuel
  | ReplIn.other => Except.error BErr.expectedStringOrReplace

/-- `expandf`: require format-compiled replacements, then apply with the
`FORMAT` flag. -/
def expandfFn (m : Option MMatch) (repl : ReplIn) (fuel : Nat) :
    Except BErr (Option (List Char)) :=
  match repl with
  | ReplIn.rrepl r =>
    if !r.use_format then Except.error BErr.notFormatCompiled
    else applyReplaceBackrefs m repl FORMAT fuel
  | ReplIn.rtempl t =>
    if !t.useFormat then Except.error BErr.notFormatCompiled
    else applyReplaceBackrefs m repl FORMAT fuel
  | ReplIn.rstr _ => applyReplaceBackrefs m repl FORMAT fuel
  | ReplIn.other => Except.error BErr.expectedStringOrReplace

/-- The token character that issues a single-character case directive. -/
def dirChar : RCase → Char
  | RCase.upper => 'c'
  | RCase.lower => 'l'

/-- A compiled pattern with one capture group, for the case-directive
claims. -/
def c3pat : HostPattern := ⟨7, 1, []⟩

/-- A compiled pattern with three capture groups, as in the repository's
case tests. -/
def c7pat : HostPattern := ⟨11, 3, []⟩

/-- The components of a pattern-hash mismatch: two patterns with different
hashes. -/
def c8p1 : HostPattern := ⟨10, 3, []⟩

/-- The second pattern of the mismatch pair. -/
def c8p2 : HostPattern := ⟨99, 3, []⟩

/-- A one-group pattern for the format-subscript claim. -/
def c9pat : HostPattern := ⟨5, 1, []⟩

/-- The plan compiled from the format template `{1[37]}` against `c9pat`:
one group reference to group 1 at slot 0 with capture subscript 37. -/
def c9plan : RPlan := ⟨[(0, 1)], [none], [(0, (none, none, 37))], true, 5⟩

/-- A pattern for the `None`-match claims. -/
def c10pat : HostPattern := ⟨3, 0, []⟩

/-- The plan compiled from the plain template `x` against `c8p1`. -/
def c8xplan : RPlan := ⟨[], [some ['x']], [], false, 10⟩

/-- A concrete non-format `Replace` object for the witnesses. -/
def c8wr : ReplaceObj := ⟨⟨[], [], [], false, 0⟩, false, 0⟩

/-- A concrete `ReplaceTemplate` plan for the witnesses. -/
def c8wt : RPlan := ⟨[], [], [], false, 0⟩

/-- A concrete format-mode `ReplaceTemplate` plan for the witnesses. -/
def c10wt : RPlan := ⟨[], [], [], true, 0⟩

/-- The format `Replace` object compiled from the template `w` against
`c10pat` with the `FORMAT` flag. -/
def c10fr : ReplaceObj := ⟨⟨[], [some ['w']], [], true, 3⟩, true, 3⟩

/-- C3: the claim says that of several single-character case directives
issued in succession, the LAST one is applied.  In fact `get_single_stack`
pops the whole stack and keeps the last value popped, which is the FIRST
directive pushed: for any two directives in a row before a group reference,
the compiled slot records the first, and expansion applies the first to the
capture's first character (the second is silently discarded, as claimed —
only the winner is stated wrongly). -/
theorem C3_first_single_directive_wins (d1 d2 : RCase) :
    ∃ plan : RPlan,
      parseTemplate c3pat ('\\' :: dirChar d1 :: '\\' :: dirChar d2 :: ['\\', '1'])
          false 100 = Except.ok plan
      ∧ plan.groupSlots = [(0, (none, some d1, -1))]
      ∧ ∀ cap : List Char,
          expandPlan ⟨c3pat, fun g => if g = 1 then [cap] else []⟩ plan
            = Except.ok
                (match d1 with
                 | RCase.upper => (cap.take 1).map Char.toUpper ++ cap.drop 1
                 | RCase.lower => (cap.take 1).map Char.toLower ++ cap.drop 1) := by
  cases d1 <;> cases d2 <;> exact ⟨_, rfl, rfl, fun cap => rfl⟩

/-- C3 counterexample: expanding `\c\l\1` against a match whose group 1
captured `stacking` yields `Stacking` — the first directive `\c` — whereas
the claimed last-wins rule predicts the lowercased first character
(`stacking`). -/
theorem C3_counterexample :
    expandFn (some ⟨c3pat, fun g => if g = 1 then ["stacking".data] else []⟩)
        (ReplIn.rstr "\\c\\l\\1".data) 100
      = Except.ok (some "Stacking".data)
    ∧ "Stacking".data
        ≠ convertCase ("stacking".data.take 1) RCase.lower ++ "stacking".data.drop 1 :=
  ⟨rfl, by decide⟩

/-- C7: for every match (of a pattern with three groups) whose group 1
captured `uppercase`, expanding `\c\1` yields `Uppercase` and `\C\1\E`
yields `UPPERCASE`; and when group 1 captured `STACKING`, `\L\c\1\E` yields
`Stacking`. -/
theorem C7_case_directive_expansion (other : Nat → List (List Char)) :
    expandFn
        (some ⟨c7pat, fun g => if g = 1 then ["uppercase".data] else other g⟩)
        (ReplIn.rstr "\\c\\1".data) 100
      = Except.ok (some "Uppercase".data)
    ∧ expandFn
        (some ⟨c7pat, fun g => if g = 1 then ["uppercase".data] else other g⟩)
        (ReplIn.rstr "\\C\\1\\E".data) 100
      = Except.ok (some "UPPERCASE".data)
    ∧ expandFn
        (some ⟨c7pat, fun g => if g = 1 then ["STACKING".data] else other g⟩)
        (ReplIn.rstr "\\L\\c\\1\\E".data) 100
      = Except.ok (some "Stacking".data) :=
  ⟨rfl, rfl, rfl⟩

/-- C8: `compile_replace` checks the recorded pattern hash for a compiled
`Replace` (mismatch → error) and rejects nonzero flags with either kind of
precompiled replacement, but a bare `ReplaceTemplate` is accepted WITHOUT
any hash comparison: the claim's "whether a Replace object or a
ReplaceTemplate plan" is wrong for the template half. -/
theorem C8_precompiled_validation (p : HostPattern) (r : ReplaceObj) (t : RPlan)
    (flags fuel : Nat) :
    (r.pattern_hash ≠ p.phash →
        compile_replace (some p) (ReplIn.rrepl r) 0 fuel
          = Except.error BErr.hashMismatch)
    ∧ (flags ≠ 0 →
        compile_replace (some p) (ReplIn.rrepl r) flags fuel
          = Except.error BErr.flagsWithCompiled)
    ∧ (flags ≠ 0 →
        compile_replace (some p) (ReplIn.rtempl t) flags fuel
          = Except.error BErr.flagsWithTemplate)
    ∧ compile_replace (some p) (ReplIn.rtempl t) 0 fuel
        = Except.ok ⟨t, t.useFormat, t.patternHash⟩ := by
  refine ⟨?_, ?_, ?_, ?_⟩
  · intro h
    simp [compile_replace, h]
  · intro h
    simp [compile_replace, h]
  · intro h
    simp [compile_replace, h]
  · simp [compile_replace]

theorem C8_precompiled_validation_witness :
    (c8wr.pattern_hash ≠ c8p2.phash ∧ (1 : Nat) ≠ 0)
    ∧ compile_replace (some c8p2) (ReplIn.rrepl c8wr) 0 5
        = Except.error BErr.hashMismatch
    ∧ compile_replace (some c8p2) (ReplIn.rrepl c8wr) 1 5
        = Except.error BErr.flagsWithCompiled
    ∧ compile_replace (some c8p2) (ReplIn.rtempl c8wt) 1 5
        = Except.error BErr.flagsWithTemplate
    ∧ compile_replace (some c8p2) (ReplIn.rtempl c8wt) 0 5
        = Except.ok ⟨c8wt, c8wt.useFormat, c8wt.patternHash⟩ :=
  ⟨⟨by decide, by decide⟩,
   (C8_precompiled_validation c8p2 c8wr c8wt 1 5).1 (by decide),
   (C8_precompiled_validation c8p2 c8wr c8wt 1 5).2.1 (by decide),
   (C8_precompiled_validation c8p2 c8wr c8wt 1 5).2.2.1 (by decide),
   (C8_precompiled_validation c8p2 c8wr c8wt 1 5).2.2.2⟩

/-- C8 counterexample: a `ReplaceTemplate` compiled against `c8p1`
(hash 10) is accepted by `compile_replace` for the different pattern `c8p2`
(hash 99) — no hash mismatch error is raised for the template kind. -/
theorem C8_counterexample :
    parseTemplate c8p1 ['x'] false 50 = Except.ok c8xplan
    ∧ compile_replace (some c8p2) (ReplIn.rtempl c8xplan) 0 50
        = Except.ok ⟨c8xplan, false, 10⟩
    ∧ c8xplan.patternHash ≠ c8p2.phash :=
  ⟨rfl, rfl, by decide⟩

/-- C9: compiling the format template `{1[0o3f]}` fails at compile time with
the capture-index error (`3f` is not a valid octal integer for the `0o`
prefix), while `{1[37]}` compiles to a plan whose group slot records capture
subscript 37, and expanding that plan errors with "37 is out of range" for
every match whose group 1 has fewer than 38 captures. -/
theorem C9_format_subscripts :
    parseTemplate c9pat ['\x7b', '1', '[', '0', 'o', '3', 'f', ']', '\x7d'] true 100
        = Except.error BErr.captureNotInt
    ∧ parseTemplate c9pat ['\x7b', '1', '[', '3', '7', ']', '\x7d'] true 100
        = Except.ok c9plan
    ∧ ∀ f : Nat → List (List Char), (f 1).length < 38 →
        expandPlan ⟨c9pat, f⟩ c9plan = Except.error (BErr.outOfRange 37) := by
  refine ⟨rfl, rfl, ?_⟩
  intro f h
  have hpg : pyGet (f 1) 37 = none := by
    simp only [pyGet]
    norm_num
    omega
  have hred : expandPlan ⟨c9pat, f⟩ c9plan
      = Except.bind
          (match pyGet (f 1) 37 with
           | none => Except.error (BErr.outOfRange 37)
           | some l => Except.ok (([] : List Char) ++ l))
          (fun t => pure t) := rfl
  rw [hpg] at hred
  exact hred.trans rfl

theorem C9_format_subscripts_witness :
    ((fun _ => ([] : List (List Char))) 1).length < 38
    ∧ expandPlan ⟨c9pat, fun _ => ([] : List (List Char))⟩ c9plan
        = Except.error (BErr.outOfRange 37) :=
  ⟨by decide, C9_format_subscripts.2.2 (fun _ => ([] : List (List Char))) (by decide)⟩

/-- C10: the claim says a `None` match always raises "Match is None!" before
the replacement is examined.  In fact `expand`/`expandf` validate the
replacement's format mode FIRST; the match-is-none error is raised only for
template strings and for compiled replacements whose format mode matches the
function called. -/
theorem C10_none_match (s : List Char) (r : ReplaceObj) (t : RPlan) (fuel : Nat) :
    expandFn none (ReplIn.rstr s) fuel = Except.error BErr.matchIsNone
    ∧ expandfFn none (ReplIn.rstr s) fuel = Except.error BErr.matchIsNone
    ∧ (r.use_format = false →
        expandFn none (ReplIn.rrepl r) fuel = Except.error BErr.matchIsNone)
    ∧ (t.useFormat = true →
        expandfFn none (ReplIn.rtempl t) fuel = Except.error BErr.matchIsNone) := by
  refine ⟨rfl, rfl, ?_, ?_⟩
  · intro h
    simp [expandFn, h, applyReplaceBackrefs]
  · intro h
    simp [expandfFn, h, applyReplaceBackrefs]

theorem C10_none_match_witness :
    (c8wr.use_format = false ∧ c10wt.useFormat = true)
    ∧ expandFn none (ReplIn.rrepl c8wr) 5 = Except.error BErr.matchIsNone
    ∧ expandfFn none (ReplIn.rtempl c10wt) 5 = Except.error BErr.matchIsNone :=
  ⟨⟨rfl, rfl⟩,
   (C10_none_match [] c8wr c10wt 5).2.2.1 rfl,
   (C10_none_match [] c8wr c10wt 5).2.2.2 rfl⟩

/-- C10 counterexample: `expand` called with a `None` match and a
format-compiled `Replace` raises the format-mode error, not "Match is
None!" — the replacement IS examined before the match check. -/
theorem C10_counterexample :
    compile_replace (some c10pat) (ReplIn.rstr ['w']) FORMAT 50 = Except.ok c10fr
    ∧ expandFn none (ReplIn.rrepl c10fr) 50 = Except.error BErr.formatCompiled
    ∧ BErr.formatCompiled ≠ BErr.matchIsNone :=
  ⟨rfl, rfl, by decide⟩

end Bregex
